import Mathlib

/-!
Shallow embedding of the ray tracer in `src/exp3/src/main.cpp`
(`waterlane/graphic-experiments`).  The C++ `float` arithmetic is modelled by
exact real arithmetic; every function mirrors the corresponding C++ function
line by line.
-/

namespace RayTracer

open scoped Classical

noncomputable section

/-- C++ `struct Vec3 { float x, y, z; }`. -/
@[ext]
structure Vec3 where
  x : ℝ
  y : ℝ
  z : ℝ

instance : Add Vec3 := ⟨fun a b => ⟨a.x + b.x, a.y + b.y, a.z + b.z⟩⟩

instance : Sub Vec3 := ⟨fun a b => ⟨a.x - b.x, a.y - b.y, a.z - b.z⟩⟩

/-- C++ `Vec3 operator*(float s)` / `operator*(float s, const Vec3 &v)`:
componentwise scaling, written `s • v`. -/
instance : SMul ℝ Vec3 := ⟨fun s v => ⟨s * v.x, s * v.y, s * v.z⟩⟩

@[simp] theorem add_x (a b : Vec3) : (a + b).x = a.x + b.x := rfl

@[simp] theorem add_y (a b : Vec3) : (a + b).y = a.y + b.y := rfl

@[simp] theorem add_z (a b : Vec3) : (a + b).z = a.z + b.z := rfl

@[simp] theorem sub_x (a b : Vec3) : (a - b).x = a.x - b.x := rfl

@[simp] theorem sub_y (a b : Vec3) : (a - b).y = a.y - b.y := rfl

@[simp] theorem sub_z (a b : Vec3) : (a - b).z = a.z - b.z := rfl

@[simp] theorem smul_x (s : ℝ) (v : Vec3) : (s • v).x = s * v.x := rfl

@[simp] theorem smul_y (s : ℝ) (v : Vec3) : (s • v).y = s * v.y := rfl

@[simp] theorem smul_z (s : ℝ) (v : Vec3) : (s • v).z = s * v.z := rfl

/-- C++ `dot`. -/
def dot (a b : Vec3) : ℝ := a.x * b.x + a.y * b.y + a.z * b.z

/-- C++ `cross`. -/
def cross (a b : Vec3) : Vec3 :=
  ⟨a.y * b.z - a.z * b.y, a.z * b.x - a.x * b.z, a.x * b.y - a.y * b.x⟩

/-- C++ `normalize`: returns the zero vector when `dot(v,v) <= 1e-8`,
otherwise `v * (1/sqrt(dot(v,v)))`. -/
def normalize (v : Vec3) : Vec3 :=
  if dot v v ≤ 1e-8 then ⟨0, 0, 0⟩
  else (Real.sqrt (dot v v))⁻¹ • v

/-- C++ `length`. -/
def length (v : Vec3) : ℝ := Real.sqrt (dot v v)

/-- C++ `clamp01` on one component. -/
def clamp01c (x : ℝ) : ℝ := if x < 0 then 0 else if x > 1 then 1 else x

/-- C++ `clamp01`. -/
def clamp01 (v : Vec3) : Vec3 := ⟨clamp01c v.x, clamp01c v.y, clamp01c v.z⟩

/-- C++ `struct Ray`. -/
structure Ray where
  o : Vec3
  d : Vec3

/-- C++ `struct Sphere`. -/
structure Sphere where
  center : Vec3
  radius : ℝ
  color : Vec3

/-- C++ `struct Plane` (room boundary, equation `n·p + d = 0`,
normal pointing into the room). -/
structure Plane where
  n : Vec3
  d : ℝ
  color : Vec3

/-- The divisor `2*a` (with `a = dot(d,d)`) used for both quadratic roots in
`intersect_sphere`; the source performs this division with no zero check. -/
def sphereDivisor (ray : Ray) : ℝ := 2 * dot ray.d ray.d

/-- The discriminant `b*b - 4*a*c` computed by `intersect_sphere`,
with `a = dot(d,d)`, `b = 2*dot(oc,d)`, `c = dot(oc,oc) - r*r`, `oc = o - center`. -/
def sphereDisc (ray : Ray) (s : Sphere) : ℝ :=
  (2 * dot (ray.o - s.center) ray.d) * (2 * dot (ray.o - s.center) ray.d) -
    4 * dot ray.d ray.d * (dot (ray.o - s.center) (ray.o - s.center) - s.radius * s.radius)

/-- The root `t0 = (-b - sqrt(disc)) / (2*a)` computed by `intersect_sphere`. -/
def sphT0 (ray : Ray) (s : Sphere) : ℝ :=
  (-(2 * dot (ray.o - s.center) ray.d) - Real.sqrt (sphereDisc ray s)) / sphereDivisor ray

/-- The root `t1 = (-b + sqrt(disc)) / (2*a)` computed by `intersect_sphere`. -/
def sphT1 (ray : Ray) (s : Sphere) : ℝ :=
  (-(2 * dot (ray.o - s.center) ray.d) + Real.sqrt (sphereDisc ray s)) / sphereDivisor ray

/-- C++ `intersect_sphere`.  `some (t, normal)` models the `true` outcome with
its two out-parameters; `none` models `false`. -/
def intersect_sphere (ray : Ray) (s : Sphere) : Option (ℝ × Vec3) :=
  if sphereDisc ray s < 0 then none
  else
    let t_hit := if sphT0 ray s < 1e-4 then sphT1 ray s else sphT0 ray s
    if t_hit < 1e-4 then none
    else some (t_hit, normalize (ray.o + t_hit • ray.d - s.center))

/-- The parametric distance `num / denom` solved by `intersect_plane`. -/
def planeT (ray : Ray) (pl : Plane) : ℝ :=
  (-(dot pl.n ray.o + pl.d)) / dot pl.n ray.d

/-- C++ `intersect_plane`. -/
def intersect_plane (ray : Ray) (pl : Plane) : Option (ℝ × Vec3) :=
  let denom := dot pl.n ray.d
  if |denom| < 1e-6 then none
  else
    let t_hit := planeT ray pl
    if t_hit < 1e-4 then none
    else
      let hitPoint := ray.o + t_hit • ray.d
      if hitPoint.x < 0.0 - 1e-3 ∨ hitPoint.x > 5.0 + 1e-3 ∨
         hitPoint.y < 0.0 - 1e-3 ∨ hitPoint.y > 3.0 + 1e-3 ∨
         hitPoint.z < 0.0 - 1e-3 ∨ hitPoint.z > 5.0 + 1e-3 then none
      else some (t_hit, pl.n)

/-- C++ `kMaxDepth`. -/
def kMaxDepth : ℕ := 2

/-- One record of the hit data tracked by the loops in `trace`
(`tMin`, `hitNormal`, `hitColor`, `hitReflectivity`). -/
structure Hit where
  t : ℝ
  normal : Vec3
  color : Vec3
  refl : ℝ

/-- The shadow condition tested by the two loops in `shade`: some sphere or
some plane intersects the shadow ray at `t < lightDist - 1e-3`. -/
def inShadowP (spheres : List Sphere) (planes : List Plane)
    (shadowRay : Ray) (lightDist : ℝ) : Prop :=
  (∃ s ∈ spheres, ∃ t n, intersect_sphere shadowRay s = some (t, n) ∧ t < lightDist - 1e-3) ∨
  (∃ p ∈ planes, ∃ t n, intersect_plane shadowRay p = some (t, n) ∧ t < lightDist - 1e-3)

/-- Scene snapshot: the global scene data read by `shade`, `trace` and
`render_scene` (`g_spheres`, `g_planes`, `g_camPos`, `g_camLook`, `g_lightPos`). -/
structure Scene where
  spheres : List Sphere
  planes : List Plane
  camPos : Vec3
  camLook : Vec3
  lightPos : Vec3

/-- C++ `shade`: Lambert diffuse + hard shadow + Blinn-Phong highlight. -/
def shade (S : Scene) (hitPoint normal baseColor viewDir : Vec3) : Vec3 :=
  let L := normalize (S.lightPos - hitPoint)
  let lightDist := length (S.lightPos - hitPoint)
  let shadowRay : Ray := ⟨hitPoint + (1e-3 : ℝ) • normal, L⟩
  let inShadow := inShadowP S.spheres S.planes shadowRay lightDist
  let ndotl := max 0 (dot normal L)
  let ambient : ℝ := 0.2
  let diff := if inShadow then 0 else ndotl
  let color := (ambient + diff * 0.8) • baseColor
  let H := normalize (L + viewDir)
  let ndoth := max 0 (dot normal H)
  let spec := if inShadow then 0 else ndoth ^ (32 : ℕ)
  let specColor := (spec * 0.3) • (⟨1, 1, 1⟩ : Vec3)
  clamp01 (color + specColor)

/-- The sphere loop body of `trace`: keep the hit when `t < tMin`
(spheres never reflect: `hitReflectivity = 0`). -/
def stepSphere (ray : Ray) (acc : ℝ × Option Hit) (s : Sphere) : ℝ × Option Hit :=
  match intersect_sphere ray s with
  | none => acc
  | some (t, n) => if t < acc.1 then (t, some ⟨t, n, s.color, 0⟩) else acc

/-- The plane loop body of `trace` (`hitReflectivity = 0.05`). -/
def stepPlane (ray : Ray) (acc : ℝ × Option Hit) (pl : Plane) : ℝ × Option Hit :=
  match intersect_plane ray pl with
  | none => acc
  | some (t, n) => if t < acc.1 then (t, some ⟨t, n, pl.color, 0.05⟩) else acc

/-- The nearest-hit search of `trace`: fold over all spheres, then all planes,
starting from `tMin = 1e30`, `hit = false`. -/
def nearestHit (S : Scene) (ray : Ray) : Option Hit :=
  (S.planes.foldl (stepPlane ray) (S.spheres.foldl (stepSphere ray) ((1e30 : ℝ), none))).2

/-- The reflection ray built by `trace`: origin offset `1e-3` along the normal,
direction `normalize(d - 2*dot(d,n)*n)`. -/
def reflRayOf (ray : Ray) (hit : Hit) : Ray :=
  ⟨(ray.o + hit.t • ray.d) + (1e-3 : ℝ) • hit.normal,
   normalize (ray.d - (2 * dot ray.d hit.normal) • hit.normal)⟩

/-- The local (non-reflected) color computed by `trace`:
`shade(hitPoint, hitNormal, hitColor, normalize(-d))`. -/
def localColorOf (S : Scene) (ray : Ray) (hit : Hit) : Vec3 :=
  shade S (ray.o + hit.t • ray.d) hit.normal hit.color (normalize ((-1 : ℝ) • ray.d))

/-- The fixed background color returned by `trace` on a miss. -/
def background : Vec3 := ⟨0.2, 0.3, 0.5⟩

/-- C++ `trace(ray, depth)`. -/
def trace (S : Scene) (ray : Ray) (depth : ℕ) : Vec3 :=
  match nearestHit S ray with
  | none => background
  | some hit =>
    if _h : depth < kMaxDepth ∧ 0 < hit.refl then
      clamp01 ((1 - hit.refl) • localColorOf S ray hit +
        hit.refl • trace S (reflRayOf ray hit) (depth + 1))
    else
      clamp01 (localColorOf S ray hit)
termination_by kMaxDepth + 1 - depth
decreasing_by
  simp only [kMaxDepth] at _h ⊢
  omega

/-- Variant tracer with the whole reflection branch removed (claim C8's
comparison point). -/
def traceNoRefl (S : Scene) (ray : Ray) (_depth : ℕ) : Vec3 :=
  match nearestHit S ray with
  | none => background
  | some hit => clamp01 (localColorOf S ray hit)

/-- Number of `shade` evaluations performed by `trace` when the nearest-hit
search is the oracle `f`; mirrors the recursion structure of `trace` exactly. -/
def shadeEvalsWith (f : Ray → Option Hit) (ray : Ray) (depth : ℕ) : ℕ :=
  match f ray with
  | none => 0
  | some hit =>
    if _h : depth < kMaxDepth ∧ 0 < hit.refl then
      1 + shadeEvalsWith f (reflRayOf ray hit) (depth + 1)
    else
      1
termination_by kMaxDepth + 1 - depth
decreasing_by
  simp only [kMaxDepth] at _h ⊢
  omega

/-- Number of `shade` evaluations performed by `trace` on the given scene. -/
def shadeEvals (S : Scene) (ray : Ray) (depth : ℕ) : ℕ :=
  shadeEvalsWith (nearestHit S) ray depth

/-- C++ `fov = 45.0f * 3.1415926f / 180.0f`. -/
def fov : ℝ := 45 * 3.1415926 / 180

/-- Camera forward axis: `normalize(g_camLook - g_camPos)`. -/
def camForward (S : Scene) : Vec3 := normalize (S.camLook - S.camPos)

/-- Camera right axis, with the fallback up-vector when `forward` is collinear
with world up. -/
def camRight (S : Scene) : Vec3 :=
  let right := normalize (cross (camForward S) ⟨0, 1, 0⟩)
  if dot right right < 1e-6 then normalize (cross (camForward S) ⟨0, 0, 1⟩)
  else right

/-- Camera up axis: `normalize(cross(right, forward))`. -/
def camUp (S : Scene) : Vec3 := normalize (cross (camRight S) (camForward S))

/-- The primary ray that `render_scene` builds for pixel `(x, y)`. -/
def pixelRay (S : Scene) (w h x y : ℕ) : Ray :=
  let scale := Real.tan (fov * 0.5)
  let aspect := (w : ℝ) / (h : ℝ)
  let u := (2 * (((x : ℝ) + 0.5) / (w : ℝ)) - 1) * aspect * scale
  let v := (2 * (((y : ℝ) + 0.5) / (h : ℝ)) - 1) * scale
  ⟨S.camPos, normalize (camForward S + u • camRight S + v • camUp S)⟩

/-- The three bytes `render_scene` writes for pixel `(x, y)`:
`col = clamp01(trace(ray))`, then each channel quantized by
`static_cast<unsigned char>(c * 255)` (truncation = floor on `[0,255]`). -/
def pixelBytes (S : Scene) (w h x y : ℕ) : List ℤ :=
  let col := clamp01 (trace S (pixelRay S w h x y) 0)
  [⌊col.x * 255⌋, ⌊col.y * 255⌋, ⌊col.z * 255⌋]

/-- C++ `render_scene`: the flat RGB buffer, written row by row
(`y` outer, `x` inner), 3 bytes per pixel at offset `(y*width + x)*3`. -/
def render_scene (S : Scene) (w h : ℕ) : List ℤ :=
  (List.range h).flatMap fun y => (List.range w).flatMap fun x => pixelBytes S w h x y

/-- Channel selector (claim side): channel `0`, `1`, `2` of a color. -/
def chanR (k : ℕ) (v : Vec3) : ℝ := if k = 0 then v.x else if k = 1 then v.y else v.z

/-- The two spheres of `init_scene`. -/
def initSpheres : List Sphere :=
  [⟨⟨1.5, 0.9, 2.5⟩, 0.9, ⟨1.0, 0.1, 0.1⟩⟩,
   ⟨⟨3.5, 0.9, 3.5⟩, 0.9, ⟨0.1, 0.1, 1.0⟩⟩]

/-- The five room planes of `init_scene` (floor, ceiling, back, right, left). -/
def initPlanes : List Plane :=
  [⟨⟨0, 1, 0⟩, 0, ⟨0.45, 0.30, 0.15⟩⟩,
   ⟨⟨0, -1, 0⟩, 3, ⟨1, 1, 1⟩⟩,
   ⟨⟨0, 0, 1⟩, 0, ⟨1, 1, 1⟩⟩,
   ⟨⟨-1, 0, 0⟩, 5, ⟨1, 1, 1⟩⟩,
   ⟨⟨1, 0, 0⟩, 0, ⟨1, 1, 1⟩⟩]

/-- The initial scene snapshot of the program (`init_scene` plus the initial
camera and light globals). -/
def initScene : Scene :=
  ⟨initSpheres, initPlanes, ⟨2.5, 1.5, 8.0⟩, ⟨2.5, 1.5, 0.0⟩, ⟨2.5, 3.0, 6.0⟩⟩

/-- The common shape of the two nearest-hit loop bodies of `trace`, acting on
an already-computed hit record: keep it when `t < tMin`. -/
def selStep (acc : ℝ × Option Hit) (h : Hit) : ℝ × Option Hit :=
  if h.t < acc.1 then (h.t, some h) else acc

/-- The hit records produced by the sphere loop of `trace`, in list order. -/
def sphereHits (ray : Ray) (l : List Sphere) : List Hit :=
  l.filterMap fun s => (intersect_sphere ray s).map fun tn => ⟨tn.1, tn.2, s.color, 0⟩

/-- The hit records produced by the plane loop of `trace`, in list order. -/
def planeHits (ray : Ray) (l : List Plane) : List Hit :=
  l.filterMap fun p => (intersect_plane ray p).map fun tn => ⟨tn.1, tn.2, p.color, 0.05⟩

/-- Counterexample data: two coincident spheres that differ only in color. -/
def cexRedSphere : Sphere := ⟨⟨0, 0, 0⟩, 1, ⟨1, 0, 0⟩⟩

/-- Counterexample data: two coincident spheres that differ only in color. -/
def cexBlueSphere : Sphere := ⟨⟨0, 0, 0⟩, 1, ⟨0, 0, 1⟩⟩

/-- Scene with the red sphere listed first. -/
def cexSceneRB : Scene :=
  ⟨[cexRedSphere, cexBlueSphere], [], ⟨0, 0, 0⟩, ⟨0, 0, 1⟩, ⟨5, 0, 0⟩⟩

/-- Scene with the blue sphere listed first (a permutation of `cexSceneRB`). -/
def cexSceneBR : Scene :=
  ⟨[cexBlueSphere, cexRedSphere], [], ⟨0, 0, 0⟩, ⟨0, 0, 1⟩, ⟨5, 0, 0⟩⟩

/-- Counterexample ray, hitting both coincident spheres at `t = 2`. -/
def cexRay7 : Ray := ⟨⟨3, 0, 0⟩, ⟨-1, 0, 0⟩⟩

/-- A one-sphere, one-plane scene: with at most one primitive per list the
distinct-hit-distance hypothesis of the amended C7 holds for every ray. -/
def wScene7 : Scene :=
  ⟨[cexRedSphere], [⟨⟨0, 1, 0⟩, 0, ⟨0.45, 0.30, 0.15⟩⟩],
   ⟨0, 0, 0⟩, ⟨0, 0, 1⟩, ⟨5, 0, 0⟩⟩

/-- `cexSceneRB` with the plane list of the initial room and a hand-picked
light, used to exercise the reflective plane path. -/
def cexSceneC8 : Scene :=
  ⟨initSpheres, initPlanes, ⟨2.5, 1.5, 8.0⟩, ⟨2.5, 1.5, 0.0⟩, ⟨2.5, 2, 2.5⟩⟩

/-- Ray pointing straight down at the floor between the two spheres. -/
def cexRay8 : Ray := ⟨⟨2.5, 1, 2.5⟩, ⟨0, -1, 0⟩⟩

/-- The room box of the spec, widened by the outward tolerance `1e-3`
(stated from the spec's words, for comparison with the source's bounds test). -/
def inRoomBox (p : Vec3) : Prop :=
  0 - 1e-3 ≤ p.x ∧ p.x ≤ 5 + 1e-3 ∧
  0 - 1e-3 ≤ p.y ∧ p.y ≤ 3 + 1e-3 ∧
  0 - 1e-3 ≤ p.z ∧ p.z ≤ 5 + 1e-3

/-! ### Evaluation helpers -/

theorem intersect_sphere_none_of_disc_neg {ray : Ray} {s : Sphere}
    (h : sphereDisc ray s < 0) : intersect_sphere ray s = none := by
  rw [intersect_sphere, if_pos h]

theorem roomBox_iff (p : Vec3) :
    (p.x < 0.0 - 1e-3 ∨ p.x > 5.0 + 1e-3 ∨ p.y < 0.0 - 1e-3 ∨ p.y > 3.0 + 1e-3 ∨
      p.z < 0.0 - 1e-3 ∨ p.z > 5.0 + 1e-3) ↔ ¬ inRoomBox p := by
  rw [inRoomBox]
  constructor
  · intro h hc
    rcases hc with ⟨h1, h2, h3, h4, h5, h6⟩
    rcases h with h | h | h | h | h | h <;> linarith
  · intro h
    by_contra hc
    push_neg at hc
    exact h ⟨by linarith [hc.1], by linarith [hc.2.1], by linarith [hc.2.2.1],
      by linarith [hc.2.2.2.1], by linarith [hc.2.2.2.2.1], by linarith [hc.2.2.2.2.2]⟩

theorem intersect_plane_eq (ray : Ray) (pl : Plane) :
    intersect_plane ray pl =
      if |dot pl.n ray.d| < 1e-6 then none
      else if planeT ray pl < 1e-4 then none
      else if ¬ inRoomBox (ray.o + planeT ray pl • ray.d) then none
      else some (planeT ray pl, pl.n) := by
  simp only [intersect_plane]
  by_cases h1 : |dot pl.n ray.d| < 1e-6
  · rw [if_pos h1, if_pos h1]
  · rw [if_neg h1, if_neg h1]
    by_cases h2 : planeT ray pl < 1e-4
    · rw [if_pos h2, if_pos h2]
    · rw [if_neg h2, if_neg h2]
      exact if_congr (roomBox_iff _) rfl rfl

theorem intersect_plane_none_parallel {ray : Ray} {pl : Plane}
    (h : |dot pl.n ray.d| < 1e-6) : intersect_plane ray pl = none := by
  rw [intersect_plane_eq, if_pos h]

theorem intersect_plane_none_of_t_lt {ray : Ray} {pl : Plane}
    (h : planeT ray pl < 1e-4) : intersect_plane ray pl = none := by
  rw [intersect_plane_eq]
  by_cases h1 : |dot pl.n ray.d| < 1e-6
  · rw [if_pos h1]
  · rw [if_neg h1, if_pos h]

theorem foldl_stepSphere_none {ray : Ray} {l : List Sphere}
    (h : ∀ s ∈ l, intersect_sphere ray s = none) (acc : ℝ × Option Hit) :
    l.foldl (stepSphere ray) acc = acc := by
  induction l generalizing acc with
  | nil => rfl
  | cons a t ih =>
    rw [List.foldl_cons]
    have ha : stepSphere ray acc a = acc := by
      rw [stepSphere, h a (List.mem_cons_self a t)]
    rw [ha]
    exact ih (fun s hs => h s (List.mem_cons_of_mem a hs)) acc

theorem foldl_stepPlane_none {ray : Ray} {l : List Plane}
    (h : ∀ p ∈ l, intersect_plane ray p = none) (acc : ℝ × Option Hit) :
    l.foldl (stepPlane ray) acc = acc := by
  induction l generalizing acc with
  | nil => rfl
  | cons a t ih =>
    rw [List.foldl_cons]
    have ha : stepPlane ray acc a = acc := by
      rw [stepPlane, h a (List.mem_cons_self a t)]
    rw [ha]
    exact ih (fun p hp => h p (List.mem_cons_of_mem a hp)) acc

theorem normalize_eq_zero_of_small {v : Vec3} (h : dot v v ≤ 1e-8) :
    normalize v = ⟨0, 0, 0⟩ := by
  rw [normalize, if_pos h]

theorem normalize_of_sq {v : Vec3} {q : ℝ} (hq : 0 < q) (h : dot v v = q * q)
    (hbig : 1e-8 < q * q) : normalize v = q⁻¹ • v := by
  rw [normalize, if_neg (by rw [h]; exact not_le.2 hbig), h, Real.sqrt_mul_self hq.le]

theorem length_of_sq {v : Vec3} {q : ℝ} (hq : 0 ≤ q) (h : dot v v = q * q) :
    length v = q := by
  rw [length, h, Real.sqrt_mul_self hq]

theorem dot_hitpoint (o d c : Vec3) (t : ℝ) :
    dot (o + t • d - c) (o + t • d - c) =
      dot (o - c) (o - c) + 2 * t * dot (o - c) d + t ^ 2 * dot d d := by
  simp only [dot, add_x, add_y, add_z, sub_x, sub_y, sub_z, smul_x, smul_y, smul_z]
  ring

theorem normalize_eval (v : Vec3) (q : ℝ) (w : Vec3) (hq : 0 < q)
    (hd : dot v v = q * q) (hbig : 1e-8 < q * q) (hw : q⁻¹ • v = w) :
    normalize v = w := by
  rw [normalize_of_sq hq hd hbig, hw]

theorem sphT0_eval (ray : Ray) (s : Sphere) (D q : ℝ)
    (hD : sphereDisc ray s = D) (hq : 0 ≤ q) (hqD : q * q = D) :
    sphT0 ray s = (-(2 * dot (ray.o - s.center) ray.d) - q) / sphereDivisor ray := by
  rw [sphT0, hD, ← hqD, Real.sqrt_mul_self hq]

theorem sphT1_eval (ray : Ray) (s : Sphere) (D q : ℝ)
    (hD : sphereDisc ray s = D) (hq : 0 ≤ q) (hqD : q * q = D) :
    sphT1 ray s = (-(2 * dot (ray.o - s.center) ray.d) + q) / sphereDivisor ray := by
  rw [sphT1, hD, ← hqD, Real.sqrt_mul_self hq]

theorem intersect_sphere_hit_t0 {ray : Ray} {s : Sphere} {t : ℝ} {nv : Vec3}
    (hd : ¬ sphereDisc ray s < 0) (ht : sphT0 ray s = t) (h0 : ¬ t < 1e-4)
    (hn : normalize (ray.o + t • ray.d - s.center) = nv) :
    intersect_sphere ray s = some (t, nv) := by
  simp only [intersect_sphere]
  rw [if_neg hd, ht, if_neg h0, if_neg h0, hn]

theorem intersect_sphere_none_roots {ray : Ray} {s : Sphere}
    (hd : ¬ sphereDisc ray s < 0) (h0 : sphT0 ray s < 1e-4)
    (h1 : sphT1 ray s < 1e-4) : intersect_sphere ray s = none := by
  simp only [intersect_sphere]
  rw [if_neg hd, if_pos h0, if_pos h1]

theorem intersect_plane_hit {ray : Ray} {pl : Plane} {t : ℝ}
    (hden : ¬ |dot pl.n ray.d| < 1e-6) (ht : planeT ray pl = t) (h4 : ¬ t < 1e-4)
    (hbox : inRoomBox (ray.o + t • ray.d)) :
    intersect_plane ray pl = some (t, pl.n) := by
  rw [intersect_plane_eq, ht, if_neg hden, if_neg h4, if_neg (not_not_intro hbox)]

theorem stepSphere_hit (ray : Ray) (acc : ℝ × Option Hit) (s : Sphere) (t : ℝ) (n : Vec3)
    (hi : intersect_sphere ray s = some (t, n)) (hlt : t < acc.1) :
    stepSphere ray acc s = (t, some ⟨t, n, s.color, 0⟩) := by
  rw [stepSphere, hi]
  show (if t < acc.1 then (t, some (⟨t, n, s.color, 0⟩ : Hit)) else acc) = _
  rw [if_pos hlt]

theorem stepSphere_skip (ray : Ray) (acc : ℝ × Option Hit) (s : Sphere) (t : ℝ) (n : Vec3)
    (hi : intersect_sphere ray s = some (t, n)) (hge : ¬ t < acc.1) :
    stepSphere ray acc s = acc := by
  rw [stepSphere, hi]
  show (if t < acc.1 then (t, some (⟨t, n, s.color, 0⟩ : Hit)) else acc) = _
  rw [if_neg hge]

theorem stepSphere_miss (ray : Ray) (acc : ℝ × Option Hit) (s : Sphere)
    (hi : intersect_sphere ray s = none) : stepSphere ray acc s = acc := by
  rw [stepSphere, hi]

theorem stepPlane_hit (ray : Ray) (acc : ℝ × Option Hit) (pl : Plane) (t : ℝ) (n : Vec3)
    (hi : intersect_plane ray pl = some (t, n)) (hlt : t < acc.1) :
    stepPlane ray acc pl = (t, some ⟨t, n, pl.color, 0.05⟩) := by
  rw [stepPlane, hi]
  show (if t < acc.1 then (t, some (⟨t, n, pl.color, 0.05⟩ : Hit)) else acc) = _
  rw [if_pos hlt]

theorem stepPlane_skip (ray : Ray) (acc : ℝ × Option Hit) (pl : Plane) (t : ℝ) (n : Vec3)
    (hi : intersect_plane ray pl = some (t, n)) (hge : ¬ t < acc.1) :
    stepPlane ray acc pl = acc := by
  rw [stepPlane, hi]
  show (if t < acc.1 then (t, some (⟨t, n, pl.color, 0.05⟩ : Hit)) else acc) = _
  rw [if_neg hge]

theorem stepPlane_miss (ray : Ray) (acc : ℝ × Option Hit) (pl : Plane)
    (hi : intersect_plane ray pl = none) : stepPlane ray acc pl = acc := by
  rw [stepPlane, hi]

theorem shade_of_shadow {S : Scene} {hitPoint normal albedo viewDir : Vec3}
    (hs : inShadowP S.spheres S.planes
      ⟨hitPoint + (1e-3 : ℝ) • normal, normalize (S.lightPos - hitPoint)⟩
      (length (S.lightPos - hitPoint))) :
    shade S hitPoint normal albedo viewDir =
      clamp01 ((0.2 + 0 * 0.8 : ℝ) • albedo + ((0 * 0.3 : ℝ)) • (⟨1, 1, 1⟩ : Vec3)) := by
  simp only [shade]
  rw [if_pos hs, if_pos hs]

theorem shade_of_not_shadow {S : Scene} {hitPoint normal albedo viewDir : Vec3}
    (hns : ¬ inShadowP S.spheres S.planes
      ⟨hitPoint + (1e-3 : ℝ) • normal, normalize (S.lightPos - hitPoint)⟩
      (length (S.lightPos - hitPoint))) :
    shade S hitPoint normal albedo viewDir =
      clamp01 ((0.2 + max 0 (dot normal (normalize (S.lightPos - hitPoint))) * 0.8) • albedo +
        (max 0 (dot normal (normalize (normalize (S.lightPos - hitPoint) + viewDir))) ^
            (32 : ℕ) * 0.3) • (⟨1, 1, 1⟩ : Vec3)) := by
  simp only [shade]
  rw [if_neg hns, if_neg hns]

theorem not_inShadow_of_miss (spheres : List Sphere) (planes : List Plane)
    (r : Ray) (ld : ℝ)
    (hs : ∀ s ∈ spheres, intersect_sphere r s = none)
    (hp : ∀ p ∈ planes, intersect_plane r p = none) :
    ¬ inShadowP spheres planes r ld := by
  rintro (⟨s, hm, t, n, heq, -⟩ | ⟨p, hm, t, n, heq, -⟩)
  · rw [hs s hm] at heq
    exact Option.noConfusion heq
  · rw [hp p hm] at heq
    exact Option.noConfusion heq

theorem trace_none {S : Scene} {ray : Ray} {depth : ℕ}
    (hf : nearestHit S ray = none) : trace S ray depth = background := by
  rw [trace, hf]

theorem trace_some {S : Scene} {ray : Ray} {depth : ℕ} {hit : Hit}
    (hf : nearestHit S ray = some hit) :
    trace S ray depth =
      if depth < kMaxDepth ∧ 0 < hit.refl then
        clamp01 ((1 - hit.refl) • localColorOf S ray hit +
          hit.refl • trace S (reflRayOf ray hit) (depth + 1))
      else clamp01 (localColorOf S ray hit) := by
  rw [trace, hf]
  rfl

theorem shadeEvalsWith_none {f : Ray → Option Hit} {ray : Ray} {depth : ℕ}
    (hf : f ray = none) : shadeEvalsWith f ray depth = 0 := by
  rw [shadeEvalsWith, hf]

theorem shadeEvalsWith_some {f : Ray → Option Hit} {ray : Ray} {depth : ℕ} {hit : Hit}
    (hf : f ray = some hit) :
    shadeEvalsWith f ray depth =
      if depth < kMaxDepth ∧ 0 < hit.refl then
        1 + shadeEvalsWith f (reflRayOf ray hit) (depth + 1)
      else 1 := by
  rw [shadeEvalsWith, hf]
  rfl

theorem nearestHit_eq_none {S : Scene} {ray : Ray}
    (hs : ∀ s ∈ S.spheres, intersect_sphere ray s = none)
    (hp : ∀ p ∈ S.planes, intersect_plane ray p = none) :
    nearestHit S ray = none := by
  rw [nearestHit, foldl_stepSphere_none hs, foldl_stepPlane_none hp]

theorem dot_mirror (d n : Vec3) :
    dot (d - (2 * dot d n) • n) (d - (2 * dot d n) • n) =
      dot d d - 4 * dot d n * dot d n + 4 * dot d n * dot d n * dot n n := by
  simp only [dot, sub_x, sub_y, sub_z, smul_x, smul_y, smul_z]
  ring

theorem dot_mirror_n (d n : Vec3) :
    dot (d - (2 * dot d n) • n) n = dot d n - 2 * dot d n * dot n n := by
  simp only [dot, sub_x, sub_y, sub_z, smul_x, smul_y, smul_z]
  ring

theorem dot_smul_left (q : ℝ) (v w : Vec3) : dot (q • v) w = q * dot v w := by
  simp only [dot, smul_x, smul_y, smul_z]
  ring

theorem dot_smul_both (q : ℝ) (v : Vec3) : dot (q • v) (q • v) = q * q * dot v v := by
  simp only [dot, smul_x, smul_y, smul_z]
  ring

theorem quad_root_of_mul (A B C t SD : ℝ) (hA : A ≠ 0)
    (h : t * (2 * A) = -B + SD ∨ t * (2 * A) = -B - SD)
    (hsd : SD ^ 2 = B * B - 4 * A * C) :
    A * t ^ 2 + B * t + C = 0 := by
  have h4 : (4 : ℝ) * A ≠ 0 := mul_ne_zero (by norm_num) hA
  have key : (4 * A) * (A * t ^ 2 + B * t + C) = 0 := by
    rcases h with h | h
    · linear_combination (t * (2 * A) + B + SD) * h + hsd
    · linear_combination (t * (2 * A) + B - SD) * h + hsd
  rcases mul_eq_zero.1 key with h0 | h0
  · exact absurd h0 h4
  · exact h0

theorem sphT0_root (ray : Ray) (s : Sphere) (ha : dot ray.d ray.d ≠ 0)
    (hd : 0 ≤ sphereDisc ray s) :
    dot ray.d ray.d * sphT0 ray s ^ 2 + 2 * dot (ray.o - s.center) ray.d * sphT0 ray s +
      (dot (ray.o - s.center) (ray.o - s.center) - s.radius * s.radius) = 0 := by
  have hne2 : (2 : ℝ) * dot ray.d ray.d ≠ 0 := mul_ne_zero (by norm_num) ha
  have e0 : sphT0 ray s * (2 * dot ray.d ray.d) =
      -(2 * dot (ray.o - s.center) ray.d) - Real.sqrt (sphereDisc ray s) := by
    rw [sphT0, sphereDivisor]
    exact div_mul_cancel₀ _ hne2
  have hsd : Real.sqrt (sphereDisc ray s) ^ 2 =
      2 * dot (ray.o - s.center) ray.d * (2 * dot (ray.o - s.center) ray.d) -
        4 * dot ray.d ray.d *
          (dot (ray.o - s.center) (ray.o - s.center) - s.radius * s.radius) := by
    rw [Real.sq_sqrt hd, sphereDisc]
  exact quad_root_of_mul _ _ _ _ _ ha (Or.inr e0) hsd

theorem sphT1_root (ray : Ray) (s : Sphere) (ha : dot ray.d ray.d ≠ 0)
    (hd : 0 ≤ sphereDisc ray s) :
    dot ray.d ray.d * sphT1 ray s ^ 2 + 2 * dot (ray.o - s.center) ray.d * sphT1 ray s +
      (dot (ray.o - s.center) (ray.o - s.center) - s.radius * s.radius) = 0 := by
  have hne2 : (2 : ℝ) * dot ray.d ray.d ≠ 0 := mul_ne_zero (by norm_num) ha
  have e1 : sphT1 ray s * (2 * dot ray.d ray.d) =
      -(2 * dot (ray.o - s.center) ray.d) + Real.sqrt (sphereDisc ray s) := by
    rw [sphT1, sphereDivisor]
    exact div_mul_cancel₀ _ hne2
  have hsd : Real.sqrt (sphereDisc ray s) ^ 2 =
      2 * dot (ray.o - s.center) ray.d * (2 * dot (ray.o - s.center) ray.d) -
        4 * dot ray.d ray.d *
          (dot (ray.o - s.center) (ray.o - s.center) - s.radius * s.radius) := by
    rw [Real.sq_sqrt hd, sphereDisc]
  exact quad_root_of_mul _ _ _ _ _ ha (Or.inl e1) hsd

theorem sphere_hit_dot (ray : Ray) (s : Sphere) (t : ℝ)
    (hroot : dot ray.d ray.d * t ^ 2 + 2 * dot (ray.o - s.center) ray.d * t +
      (dot (ray.o - s.center) (ray.o - s.center) - s.radius * s.radius) = 0) :
    dot (ray.o + t • ray.d - s.center) (ray.o + t • ray.d - s.center) =
      s.radius * s.radius := by
  rw [dot_hitpoint]
  linear_combination hroot

theorem length_flatMap_const {α β : Type} (f : α → List β) (n : ℕ) :
    ∀ l : List α, (∀ x ∈ l, (f x).length = n) →
      (l.flatMap f).length = l.length * n := by
  intro l
  induction l with
  | nil => intro _; simp
  | cons x t ih =>
    intro h
    rw [List.flatMap_cons, List.length_append, h x (List.mem_cons_self x t),
      ih (fun z hz => h z (List.mem_cons_of_mem x hz)), List.length_cons]
    ring

theorem getElem?_flatMap_const {α β : Type} (f : α → List β) (n : ℕ) :
    ∀ (l : List α) (i j : ℕ) (a : α), (∀ x ∈ l, (f x).length = n) →
      l[i]? = some a → j < n →
      (l.flatMap f)[i * n + j]? = (f a)[j]? := by
  intro l
  induction l with
  | nil =>
    intro i j a _ hget _
    simp at hget
  | cons x t ih =>
    intro i j a h hget hj
    cases i with
    | zero =>
      rw [List.getElem?_cons_zero] at hget
      obtain rfl : x = a := by injection hget
      rw [List.flatMap_cons, Nat.zero_mul, Nat.zero_add]
      exact List.getElem?_append_left
        (by rw [h x (List.mem_cons_self x t)]; exact hj)
    | succ i =>
      rw [List.flatMap_cons]
      have hlen : (f x).length = n := h x (List.mem_cons_self x t)
      have hidx : (i + 1) * n + j = (f x).length + (i * n + j) := by
        rw [hlen]
        ring
      rw [hidx, List.getElem?_append_right (Nat.le_add_right _ _),
        Nat.add_sub_cancel_left]
      exact ih i j a (fun z hz => h z (List.mem_cons_of_mem x hz))
        (by simpa using hget) hj

/-! ### Nearest-hit fold lemmas -/

theorem stepSphere_eq_selStep (ray : Ray) (l : List Sphere) (acc : ℝ × Option Hit) :
    l.foldl (stepSphere ray) acc = (sphereHits ray l).foldl selStep acc := by
  induction l generalizing acc with
  | nil => rfl
  | cons a t ih =>
    rw [List.foldl_cons]
    rcases hi : intersect_sphere ray a with _ | ⟨tv, nv⟩
    · have h1 : sphereHits ray (a :: t) = sphereHits ray t := by
        simp [sphereHits, List.filterMap_cons, hi]
      have h2 : stepSphere ray acc a = acc := by rw [stepSphere, hi]
      rw [h1, h2, ih]
    · have h1 : sphereHits ray (a :: t) =
          (⟨tv, nv, a.color, 0⟩ : Hit) :: sphereHits ray t := by
        simp [sphereHits, List.filterMap_cons, hi]
      have h2 : stepSphere ray acc a = selStep acc ⟨tv, nv, a.color, 0⟩ := by
        rw [stepSphere, hi, selStep]
      rw [h1, List.foldl_cons, h2, ih]

theorem stepPlane_eq_selStep (ray : Ray) (l : List Plane) (acc : ℝ × Option Hit) :
    l.foldl (stepPlane ray) acc = (planeHits ray l).foldl selStep acc := by
  induction l generalizing acc with
  | nil => rfl
  | cons a t ih =>
    rw [List.foldl_cons]
    rcases hi : intersect_plane ray a with _ | ⟨tv, nv⟩
    · have h1 : planeHits ray (a :: t) = planeHits ray t := by
        simp [planeHits, List.filterMap_cons, hi]
      have h2 : stepPlane ray acc a = acc := by rw [stepPlane, hi]
      rw [h1, h2, ih]
    · have h1 : planeHits ray (a :: t) =
          (⟨tv, nv, a.color, 0.05⟩ : Hit) :: planeHits ray t := by
        simp [planeHits, List.filterMap_cons, hi]
      have h2 : stepPlane ray acc a = selStep acc ⟨tv, nv, a.color, 0.05⟩ := by
        rw [stepPlane, hi, selStep]
      rw [h1, List.foldl_cons, h2, ih]

theorem nearestHit_eq_selStep (S : Scene) (ray : Ray) :
    nearestHit S ray =
      ((sphereHits ray S.spheres ++ planeHits ray S.planes).foldl selStep
        ((1e30 : ℝ), none)).2 := by
  rw [nearestHit, stepSphere_eq_selStep, stepPlane_eq_selStep, List.foldl_append]

theorem selStep_fold_of_ge (l : List Hit) (acc : ℝ × Option Hit)
    (h : ∀ x ∈ l, ¬ x.t < acc.1) : l.foldl selStep acc = acc := by
  induction l generalizing acc with
  | nil => rfl
  | cons a t ih =>
    rw [List.foldl_cons,
      show selStep acc a = acc from by rw [selStep, if_neg (h a (List.mem_cons_self a t))]]
    exact ih acc fun x hx => h x (List.mem_cons_of_mem a hx)

theorem selStep_fold_min (hstar : Hit) :
    ∀ l : List Hit, (l.map Hit.t).Pairwise (fun a b => a ≠ b) → hstar ∈ l →
      (∀ x ∈ l, hstar.t ≤ x.t) → ∀ acc : ℝ × Option Hit, hstar.t < acc.1 →
      l.foldl selStep acc = (hstar.t, some hstar) := by
  intro l
  induction l with
  | nil => intro _ hmem; cases hmem
  | cons a t ih =>
    intro hdist hmem hmin acc hlt
    rcases List.mem_cons.1 hmem with rfl | hmem'
    · rw [List.foldl_cons, show selStep acc hstar = (hstar.t, some hstar) from by
        rw [selStep, if_pos hlt]]
      exact selStep_fold_of_ge t _ fun x hx =>
        not_lt.2 (hmin x (List.mem_cons_of_mem _ hx))
    · have hne : hstar.t ≠ a.t :=
        Ne.symm ((List.pairwise_cons.1 hdist).1 hstar.t
          (List.mem_map_of_mem Hit.t hmem'))
      have hsa : hstar.t < a.t :=
        lt_of_le_of_ne (hmin a (List.mem_cons_self a t)) hne
      rw [List.foldl_cons]
      have hacc' : hstar.t < (selStep acc a).1 := by
        rw [selStep]
        split_ifs with hc
        · exact hsa
        · exact hlt
      exact ih (List.pairwise_cons.1 hdist).2 hmem'
        (fun x hx => hmin x (List.mem_cons_of_mem a hx)) _ hacc'

theorem selStep_fold_perm {l l' : List Hit} (acc : ℝ × Option Hit)
    (hperm : l.Perm l')
    (hdist : (l.map Hit.t).Pairwise (fun a b => a ≠ b)) :
    l.foldl selStep acc = l'.foldl selStep acc := by
  by_cases hex : ∃ x ∈ l, x.t < acc.1
  · obtain ⟨x0, hx0, hx0lt⟩ := hex
    have hlne : l ≠ [] := by
      rintro rfl
      cases hx0
    rcases hargm : l.argmin Hit.t with _ | hstar
    · exact absurd (List.argmin_eq_none.1 hargm) hlne
    have hmem : hstar ∈ l := List.argmin_mem (Option.mem_def.mpr hargm)
    have hmin : ∀ x ∈ l, hstar.t ≤ x.t :=
      fun x hx => List.le_of_mem_argmin hx (Option.mem_def.mpr hargm)
    have hlt : hstar.t < acc.1 := lt_of_le_of_lt (hmin x0 hx0) hx0lt
    have hdist' : (l'.map Hit.t).Pairwise (fun a b => a ≠ b) :=
      ((hperm.map Hit.t).pairwise_iff fun h => Ne.symm h).1 hdist
    have hmem' : hstar ∈ l' := hperm.mem_iff.1 hmem
    have hmin' : ∀ x ∈ l', hstar.t ≤ x.t := fun x hx => hmin x (hperm.mem_iff.2 hx)
    rw [selStep_fold_min hstar l hdist hmem hmin acc hlt,
      selStep_fold_min hstar l' hdist' hmem' hmin' acc hlt]
  · push_neg at hex
    rw [selStep_fold_of_ge l acc fun x hx => not_lt.2 (hex x hx),
      selStep_fold_of_ge l' acc fun x hx => not_lt.2 (hex x (hperm.mem_iff.2 hx))]

theorem sphereHits_perm (ray : Ray) {l1 l2 : List Sphere} (h : l1.Perm l2) :
    (sphereHits ray l1).Perm (sphereHits ray l2) := h.filterMap _

theorem planeHits_perm (ray : Ray) {l1 l2 : List Plane} (h : l1.Perm l2) :
    (planeHits ray l1).Perm (planeHits ray l2) := h.filterMap _

theorem inShadowP_perm {s1 s2 : List Sphere} {p1 p2 : List Plane}
    (hs : s1.Perm s2) (hp : p1.Perm p2) (r : Ray) (ld : ℝ) :
    inShadowP s1 p1 r ld = inShadowP s2 p2 r ld := by
  rw [inShadowP, inShadowP]
  exact propext (or_congr
    (exists_congr fun s => and_congr_left fun _ => hs.mem_iff)
    (exists_congr fun p => and_congr_left fun _ => hp.mem_iff))

theorem shade_perm {S S' : Scene} (hs : S.spheres.Perm S'.spheres)
    (hp : S.planes.Perm S'.planes) (hl : S.lightPos = S'.lightPos)
    (hitPoint normal baseColor viewDir : Vec3) :
    shade S hitPoint normal baseColor viewDir =
      shade S' hitPoint normal baseColor viewDir := by
  have hsh : ∀ (R : Ray) (D : ℝ),
      inShadowP S.spheres S.planes R D = inShadowP S'.spheres S'.planes R D :=
    fun R D => inShadowP_perm hs hp R D
  simp only [shade, hl, hsh]

theorem localColorOf_perm {S S' : Scene} (hs : S.spheres.Perm S'.spheres)
    (hp : S.planes.Perm S'.planes) (hl : S.lightPos = S'.lightPos)
    (ray : Ray) (hit : Hit) :
    localColorOf S ray hit = localColorOf S' ray hit := by
  rw [localColorOf, localColorOf, shade_perm hs hp hl]

theorem nearestHit_perm {S S' : Scene} (ray : Ray)
    (hs : S.spheres.Perm S'.spheres) (hp : S.planes.Perm S'.planes)
    (hd1 : ((sphereHits ray S.spheres).map Hit.t).Pairwise (fun a b => a ≠ b))
    (hd2 : ((planeHits ray S.planes).map Hit.t).Pairwise (fun a b => a ≠ b)) :
    nearestHit S ray = nearestHit S' ray := by
  rw [nearestHit_eq_selStep, nearestHit_eq_selStep, List.foldl_append,
    List.foldl_append, selStep_fold_perm _ (sphereHits_perm ray hs) hd1,
    selStep_fold_perm _ (planeHits_perm ray hp) hd2]

theorem pairwise_of_length_le_one {α : Type} {R : α → α → Prop} {l : List α}
    (h : l.length ≤ 1) : l.Pairwise R := by
  cases l with
  | nil => exact List.Pairwise.nil
  | cons a t =>
    cases t with
    | nil => exact List.pairwise_singleton R a
    | cons b u => simp at h

theorem sphereHits_len_le (ray : Ray) (l : List Sphere) :
    (sphereHits ray l).length ≤ l.length := List.length_filterMap_le _ _

theorem planeHits_len_le (ray : Ray) (l : List Plane) :
    (planeHits ray l).length ≤ l.length := List.length_filterMap_le _ _

/-- Shared shade evaluation for the C7 counterexample scenes: at hit point
`(1,0,0)` with normal, view direction `(1,0,0)` and light `(5,0,0)`, the
shadow ray misses both coincident unit spheres (both roots negative), so the
full-brightness formula applies. -/
theorem cex7_shade (S : Scene) (albedo : Vec3)
    (hs : ∀ s ∈ S.spheres, s = cexRedSphere ∨ s = cexBlueSphere)
    (hpl : S.planes = ([] : List Plane))
    (hl : S.lightPos = ⟨5, 0, 0⟩) (w : Vec3)
    (hw : ((0.2 + 1 * 0.8 : ℝ)) • albedo +
      (((1 : ℝ) ^ (32 : ℕ) * 0.3)) • (⟨1, 1, 1⟩ : Vec3) = w) :
    shade S ⟨1, 0, 0⟩ ⟨1, 0, 0⟩ albedo ⟨1, 0, 0⟩ = clamp01 w := by
  have hLv : S.lightPos - (⟨1, 0, 0⟩ : Vec3) = ⟨4, 0, 0⟩ := by
    rw [hl]
    apply Vec3.ext <;> norm_num
  have hL : normalize (⟨4, 0, 0⟩ : Vec3) = ⟨1, 0, 0⟩ :=
    normalize_eval _ 4 _ (by norm_num) (by norm_num [dot]) (by norm_num)
      (by apply Vec3.ext <;> norm_num)
  have hLd : length (⟨4, 0, 0⟩ : Vec3) = 4 :=
    length_of_sq (by norm_num) (by norm_num [dot])
  have hsro : (⟨1, 0, 0⟩ : Vec3) + (1e-3 : ℝ) • (⟨1, 0, 0⟩ : Vec3) = ⟨1.001, 0, 0⟩ := by
    apply Vec3.ext <;> norm_num
  have hdiscR : sphereDisc ⟨⟨1.001, 0, 0⟩, ⟨1, 0, 0⟩⟩ cexRedSphere = 4 := by
    norm_num [sphereDisc, dot, cexRedSphere]
  have ht0R : sphT0 ⟨⟨1.001, 0, 0⟩, ⟨1, 0, 0⟩⟩ cexRedSphere = -2.001 := by
    rw [sphT0_eval _ _ 4 2 hdiscR (by norm_num) (by norm_num)]
    norm_num [dot, sphereDivisor, cexRedSphere]
  have ht1R : sphT1 ⟨⟨1.001, 0, 0⟩, ⟨1, 0, 0⟩⟩ cexRedSphere = -0.001 := by
    rw [sphT1_eval _ _ 4 2 hdiscR (by norm_num) (by norm_num)]
    norm_num [dot, sphereDivisor, cexRedSphere]
  have hmR : intersect_sphere ⟨⟨1.001, 0, 0⟩, ⟨1, 0, 0⟩⟩ cexRedSphere = none :=
    intersect_sphere_none_roots (by rw [hdiscR]; norm_num) (by rw [ht0R]; norm_num)
      (by rw [ht1R]; norm_num)
  have hdiscB : sphereDisc ⟨⟨1.001, 0, 0⟩, ⟨1, 0, 0⟩⟩ cexBlueSphere = 4 := by
    norm_num [sphereDisc, dot, cexBlueSphere]
  have ht0B : sphT0 ⟨⟨1.001, 0, 0⟩, ⟨1, 0, 0⟩⟩ cexBlueSphere = -2.001 := by
    rw [sphT0_eval _ _ 4 2 hdiscB (by norm_num) (by norm_num)]
    norm_num [dot, sphereDivisor, cexBlueSphere]
  have ht1B : sphT1 ⟨⟨1.001, 0, 0⟩, ⟨1, 0, 0⟩⟩ cexBlueSphere = -0.001 := by
    rw [sphT1_eval _ _ 4 2 hdiscB (by norm_num) (by norm_num)]
    norm_num [dot, sphereDivisor, cexBlueSphere]
  have hmB : intersect_sphere ⟨⟨1.001, 0, 0⟩, ⟨1, 0, 0⟩⟩ cexBlueSphere = none :=
    intersect_sphere_none_roots (by rw [hdiscB]; norm_num) (by rw [ht0B]; norm_num)
      (by rw [ht1B]; norm_num)
  have hns : ¬ inShadowP S.spheres S.planes
      ⟨(⟨1, 0, 0⟩ : Vec3) + (1e-3 : ℝ) • (⟨1, 0, 0⟩ : Vec3),
        normalize (S.lightPos - ⟨1, 0, 0⟩)⟩
      (length (S.lightPos - ⟨1, 0, 0⟩)) := by
    rw [hLv, hL, hLd, hsro]
    refine not_inShadow_of_miss _ _ _ _ ?_ ?_
    · intro s hsm
      rcases hs s hsm with rfl | rfl
      · exact hmR
      · exact hmB
    · intro p hpm
      rw [hpl] at hpm
      exact absurd hpm (List.not_mem_nil p)
  rw [shade_of_not_shadow hns, hLv, hL]
  have hplus : (⟨1, 0, 0⟩ : Vec3) + (⟨1, 0, 0⟩ : Vec3) = ⟨2, 0, 0⟩ := by
    apply Vec3.ext <;> norm_num
  have hH : normalize (⟨2, 0, 0⟩ : Vec3) = ⟨1, 0, 0⟩ :=
    normalize_eval _ 2 _ (by norm_num) (by norm_num [dot]) (by norm_num)
      (by apply Vec3.ext <;> norm_num)
  rw [hplus, hH]
  have hd11 : dot (⟨1, 0, 0⟩ : Vec3) (⟨1, 0, 0⟩ : Vec3) = 1 := by norm_num [dot]
  rw [hd11]
  have hm01 : max (0 : ℝ) 1 = 1 := by norm_num
  rw [hm01, hw]

/-! ### Concrete evaluations for the C8 counterexample -/

theorem cex8_nhR0 :
    nearestHit cexSceneC8 cexRay8 =
      some ⟨1, ⟨0, 1, 0⟩, ⟨0.45, 0.30, 0.15⟩, 0.05⟩ := by
  have m1 : intersect_sphere cexRay8 ⟨⟨1.5, 0.9, 2.5⟩, 0.9, ⟨1.0, 0.1, 0.1⟩⟩ = none :=
    intersect_sphere_none_of_disc_neg (by norm_num [sphereDisc, dot, cexRay8])
  have m2 : intersect_sphere cexRay8 ⟨⟨3.5, 0.9, 3.5⟩, 0.9, ⟨0.1, 0.1, 1.0⟩⟩ = none :=
    intersect_sphere_none_of_disc_neg (by norm_num [sphereDisc, dot, cexRay8])
  have pf : intersect_plane cexRay8 ⟨⟨0, 1, 0⟩, 0, ⟨0.45, 0.30, 0.15⟩⟩ =
      some (1, ⟨0, 1, 0⟩) :=
    intersect_plane_hit (by norm_num [dot, cexRay8])
      (by norm_num [planeT, dot, cexRay8]) (by norm_num)
      (by norm_num [inRoomBox, cexRay8])
  have pc : intersect_plane cexRay8 ⟨⟨0, -1, 0⟩, 3, ⟨1, 1, 1⟩⟩ = none :=
    intersect_plane_none_of_t_lt (by norm_num [planeT, dot, cexRay8])
  have pb : intersect_plane cexRay8 ⟨⟨0, 0, 1⟩, 0, ⟨1, 1, 1⟩⟩ = none :=
    intersect_plane_none_parallel (by norm_num [dot, cexRay8])
  have pr : intersect_plane cexRay8 ⟨⟨-1, 0, 0⟩, 5, ⟨1, 1, 1⟩⟩ = none :=
    intersect_plane_none_parallel (by norm_num [dot, cexRay8])
  have pq : intersect_plane cexRay8 ⟨⟨1, 0, 0⟩, 0, ⟨1, 1, 1⟩⟩ = none :=
    intersect_plane_none_parallel (by norm_num [dot, cexRay8])
  have hsph : List.foldl (stepSphere cexRay8) ((1e30 : ℝ), (none : Option Hit))
      [⟨⟨1.5, 0.9, 2.5⟩, 0.9, ⟨1.0, 0.1, 0.1⟩⟩, ⟨⟨3.5, 0.9, 3.5⟩, 0.9, ⟨0.1, 0.1, 1.0⟩⟩] =
      ((1e30 : ℝ), none) := by
    rw [List.foldl_cons, stepSphere_miss _ _ _ m1, List.foldl_cons,
      stepSphere_miss _ _ _ m2, List.foldl_nil]
  have hpla : List.foldl (stepPlane cexRay8) ((1e30 : ℝ), (none : Option Hit))
      [⟨⟨0, 1, 0⟩, 0, ⟨0.45, 0.30, 0.15⟩⟩, ⟨⟨0, -1, 0⟩, 3, ⟨1, 1, 1⟩⟩,
       ⟨⟨0, 0, 1⟩, 0, ⟨1, 1, 1⟩⟩, ⟨⟨-1, 0, 0⟩, 5, ⟨1, 1, 1⟩⟩,
       ⟨⟨1, 0, 0⟩, 0, ⟨1, 1, 1⟩⟩] =
      ((1 : ℝ), some ⟨1, ⟨0, 1, 0⟩, ⟨0.45, 0.30, 0.15⟩, 0.05⟩) := by
    rw [List.foldl_cons, stepPlane_hit _ _ _ _ _ pf (by show (1 : ℝ) < 1e30; norm_num),
      List.foldl_cons, stepPlane_miss _ _ _ pc, List.foldl_cons,
      stepPlane_miss _ _ _ pb, List.foldl_cons, stepPlane_miss _ _ _ pr,
      List.foldl_cons, stepPlane_miss _ _ _ pq, List.foldl_nil]
  rw [nearestHit]
  show (List.foldl (stepPlane cexRay8)
    (List.foldl (stepSphere cexRay8) ((1e30 : ℝ), none)
      [⟨⟨1.5, 0.9, 2.5⟩, 0.9, ⟨1.0, 0.1, 0.1⟩⟩, ⟨⟨3.5, 0.9, 3.5⟩, 0.9, ⟨0.1, 0.1, 1.0⟩⟩])
    [⟨⟨0, 1, 0⟩, 0, ⟨0.45, 0.30, 0.15⟩⟩, ⟨⟨0, -1, 0⟩, 3, ⟨1, 1, 1⟩⟩,
     ⟨⟨0, 0, 1⟩, 0, ⟨1, 1, 1⟩⟩, ⟨⟨-1, 0, 0⟩, 5, ⟨1, 1, 1⟩⟩,
     ⟨⟨1, 0, 0⟩, 0, ⟨1, 1, 1⟩⟩]).2 = _
  rw [hsph, hpla]

theorem cex8_iRU_ceiling :
    intersect_plane ⟨⟨2.5, 1e-3, 2.5⟩, ⟨0, 1, 0⟩⟩ ⟨⟨0, -1, 0⟩, 3, ⟨1, 1, 1⟩⟩ =
      some (2.999, ⟨0, -1, 0⟩) :=
  intersect_plane_hit (by norm_num [dot]) (by norm_num [planeT, dot]) (by norm_num)
    (by norm_num [inRoomBox])

theorem cex8_mRU_s1 :
    intersect_sphere ⟨⟨2.5, 1e-3, 2.5⟩, ⟨0, 1, 0⟩⟩
      ⟨⟨1.5, 0.9, 2.5⟩, 0.9, ⟨1.0, 0.1, 0.1⟩⟩ = none :=
  intersect_sphere_none_of_disc_neg (by norm_num [sphereDisc, dot])

theorem cex8_mRU_s2 :
    intersect_sphere ⟨⟨2.5, 1e-3, 2.5⟩, ⟨0, 1, 0⟩⟩
      ⟨⟨3.5, 0.9, 3.5⟩, 0.9, ⟨0.1, 0.1, 1.0⟩⟩ = none :=
  intersect_sphere_none_of_disc_neg (by norm_num [sphereDisc, dot])

theorem cex8_mRU_floor :
    intersect_plane ⟨⟨2.5, 1e-3, 2.5⟩, ⟨0, 1, 0⟩⟩
      ⟨⟨0, 1, 0⟩, 0, ⟨0.45, 0.30, 0.15⟩⟩ = none :=
  intersect_plane_none_of_t_lt (by norm_num [planeT, dot])

theorem cex8_mRU_back :
    intersect_plane ⟨⟨2.5, 1e-3, 2.5⟩, ⟨0, 1, 0⟩⟩ ⟨⟨0, 0, 1⟩, 0, ⟨1, 1, 1⟩⟩ = none :=
  intersect_plane_none_parallel (by norm_num [dot])

theorem cex8_mRU_right :
    intersect_plane ⟨⟨2.5, 1e-3, 2.5⟩, ⟨0, 1, 0⟩⟩ ⟨⟨-1, 0, 0⟩, 5, ⟨1, 1, 1⟩⟩ = none :=
  intersect_plane_none_parallel (by norm_num [dot])

theorem cex8_mRU_left :
    intersect_plane ⟨⟨2.5, 1e-3, 2.5⟩, ⟨0, 1, 0⟩⟩ ⟨⟨1, 0, 0⟩, 0, ⟨1, 1, 1⟩⟩ = none :=
  intersect_plane_none_parallel (by norm_num [dot])

theorem cex8_nhRU :
    nearestHit cexSceneC8 ⟨⟨2.5, 1e-3, 2.5⟩, ⟨0, 1, 0⟩⟩ =
      some ⟨2.999, ⟨0, -1, 0⟩, ⟨1, 1, 1⟩, 0.05⟩ := by
  have hsph : List.foldl (stepSphere ⟨⟨2.5, 1e-3, 2.5⟩, ⟨0, 1, 0⟩⟩)
      ((1e30 : ℝ), (none : Option Hit))
      [⟨⟨1.5, 0.9, 2.5⟩, 0.9, ⟨1.0, 0.1, 0.1⟩⟩, ⟨⟨3.5, 0.9, 3.5⟩, 0.9, ⟨0.1, 0.1, 1.0⟩⟩] =
      ((1e30 : ℝ), none) := by
    rw [List.foldl_cons, stepSphere_miss _ _ _ cex8_mRU_s1, List.foldl_cons,
      stepSphere_miss _ _ _ cex8_mRU_s2, List.foldl_nil]
  have hpla : List.foldl (stepPlane ⟨⟨2.5, 1e-3, 2.5⟩, ⟨0, 1, 0⟩⟩)
      ((1e30 : ℝ), (none : Option Hit))
      [⟨⟨0, 1, 0⟩, 0, ⟨0.45, 0.30, 0.15⟩⟩, ⟨⟨0, -1, 0⟩, 3, ⟨1, 1, 1⟩⟩,
       ⟨⟨0, 0, 1⟩, 0, ⟨1, 1, 1⟩⟩, ⟨⟨-1, 0, 0⟩, 5, ⟨1, 1, 1⟩⟩,
       ⟨⟨1, 0, 0⟩, 0, ⟨1, 1, 1⟩⟩] =
      ((2.999 : ℝ), some ⟨2.999, ⟨0, -1, 0⟩, ⟨1, 1, 1⟩, 0.05⟩) := by
    rw [List.foldl_cons, stepPlane_miss _ _ _ cex8_mRU_floor, List.foldl_cons,
      stepPlane_hit _ _ _ _ _ cex8_iRU_ceiling (by show (2.999 : ℝ) < 1e30; norm_num),
      List.foldl_cons, stepPlane_miss _ _ _ cex8_mRU_back, List.foldl_cons,
      stepPlane_miss _ _ _ cex8_mRU_right, List.foldl_cons,
      stepPlane_miss _ _ _ cex8_mRU_left, List.foldl_nil]
  rw [nearestHit]
  show (List.foldl (stepPlane ⟨⟨2.5, 1e-3, 2.5⟩, ⟨0, 1, 0⟩⟩)
    (List.foldl (stepSphere ⟨⟨2.5, 1e-3, 2.5⟩, ⟨0, 1, 0⟩⟩) ((1e30 : ℝ), none)
      [⟨⟨1.5, 0.9, 2.5⟩, 0.9, ⟨1.0, 0.1, 0.1⟩⟩, ⟨⟨3.5, 0.9, 3.5⟩, 0.9, ⟨0.1, 0.1, 1.0⟩⟩])
    [⟨⟨0, 1, 0⟩, 0, ⟨0.45, 0.30, 0.15⟩⟩, ⟨⟨0, -1, 0⟩, 3, ⟨1, 1, 1⟩⟩,
     ⟨⟨0, 0, 1⟩, 0, ⟨1, 1, 1⟩⟩, ⟨⟨-1, 0, 0⟩, 5, ⟨1, 1, 1⟩⟩,
     ⟨⟨1, 0, 0⟩, 0, ⟨1, 1, 1⟩⟩]).2 = _
  rw [hsph, hpla]

theorem cex8_iRD_floor :
    intersect_plane ⟨⟨2.5, 2.999, 2.5⟩, ⟨0, -1, 0⟩⟩
      ⟨⟨0, 1, 0⟩, 0, ⟨0.45, 0.30, 0.15⟩⟩ = some (2.999, ⟨0, 1, 0⟩) :=
  intersect_plane_hit (by norm_num [dot]) (by norm_num [planeT, dot]) (by norm_num)
    (by norm_num [inRoomBox])

theorem cex8_mRD_s1 :
    intersect_sphere ⟨⟨2.5, 2.999, 2.5⟩, ⟨0, -1, 0⟩⟩
      ⟨⟨1.5, 0.9, 2.5⟩, 0.9, ⟨1.0, 0.1, 0.1⟩⟩ = none :=
  intersect_sphere_none_of_disc_neg (by norm_num [sphereDisc, dot])

theorem cex8_mRD_s2 :
    intersect_sphere ⟨⟨2.5, 2.999, 2.5⟩, ⟨0, -1, 0⟩⟩
      ⟨⟨3.5, 0.9, 3.5⟩, 0.9, ⟨0.1, 0.1, 1.0⟩⟩ = none :=
  intersect_sphere_none_of_disc_neg (by norm_num [sphereDisc, dot])

theorem cex8_mRD_ceiling :
    intersect_plane ⟨⟨2.5, 2.999, 2.5⟩, ⟨0, -1, 0⟩⟩ ⟨⟨0, -1, 0⟩, 3, ⟨1, 1, 1⟩⟩ = none :=
  intersect_plane_none_of_t_lt (by norm_num [planeT, dot])

theorem cex8_mRD_back :
    intersect_plane ⟨⟨2.5, 2.999, 2.5⟩, ⟨0, -1, 0⟩⟩ ⟨⟨0, 0, 1⟩, 0, ⟨1, 1, 1⟩⟩ = none :=
  intersect_plane_none_parallel (by norm_num [dot])

theorem cex8_mRD_right :
    intersect_plane ⟨⟨2.5, 2.999, 2.5⟩, ⟨0, -1, 0⟩⟩ ⟨⟨-1, 0, 0⟩, 5, ⟨1, 1, 1⟩⟩ = none :=
  intersect_plane_none_parallel (by norm_num [dot])

theorem cex8_mRD_left :
    intersect_plane ⟨⟨2.5, 2.999, 2.5⟩, ⟨0, -1, 0⟩⟩ ⟨⟨1, 0, 0⟩, 0, ⟨1, 1, 1⟩⟩ = none :=
  intersect_plane_none_parallel (by norm_num [dot])

theorem cex8_nhRD :
    nearestHit cexSceneC8 ⟨⟨2.5, 2.999, 2.5⟩, ⟨0, -1, 0⟩⟩ =
      some ⟨2.999, ⟨0, 1, 0⟩, ⟨0.45, 0.30, 0.15⟩, 0.05⟩ := by
  have hsph : List.foldl (stepSphere ⟨⟨2.5, 2.999, 2.5⟩, ⟨0, -1, 0⟩⟩)
      ((1e30 : ℝ), (none : Option Hit))
      [⟨⟨1.5, 0.9, 2.5⟩, 0.9, ⟨1.0, 0.1, 0.1⟩⟩, ⟨⟨3.5, 0.9, 3.5⟩, 0.9, ⟨0.1, 0.1, 1.0⟩⟩] =
      ((1e30 : ℝ), none) := by
    rw [List.foldl_cons, stepSphere_miss _ _ _ cex8_mRD_s1, List.foldl_cons,
      stepSphere_miss _ _ _ cex8_mRD_s2, List.foldl_nil]
  have hpla : List.foldl (stepPlane ⟨⟨2.5, 2.999, 2.5⟩, ⟨0, -1, 0⟩⟩)
      ((1e30 : ℝ), (none : Option Hit))
      [⟨⟨0, 1, 0⟩, 0, ⟨0.45, 0.30, 0.15⟩⟩, ⟨⟨0, -1, 0⟩, 3, ⟨1, 1, 1⟩⟩,
       ⟨⟨0, 0, 1⟩, 0, ⟨1, 1, 1⟩⟩, ⟨⟨-1, 0, 0⟩, 5, ⟨1, 1, 1⟩⟩,
       ⟨⟨1, 0, 0⟩, 0, ⟨1, 1, 1⟩⟩] =
      ((2.999 : ℝ), some ⟨2.999, ⟨0, 1, 0⟩, ⟨0.45, 0.30, 0.15⟩, 0.05⟩) := by
    rw [List.foldl_cons, stepPlane_hit _ _ _ _ _ cex8_iRD_floor
        (by show (2.999 : ℝ) < 1e30; norm_num),
      List.foldl_cons, stepPlane_miss _ _ _ cex8_mRD_ceiling, List.foldl_cons,
      stepPlane_miss _ _ _ cex8_mRD_back, List.foldl_cons,
      stepPlane_miss _ _ _ cex8_mRD_right, List.foldl_cons,
      stepPlane_miss _ _ _ cex8_mRD_left, List.foldl_nil]
  rw [nearestHit]
  show (List.foldl (stepPlane ⟨⟨2.5, 2.999, 2.5⟩, ⟨0, -1, 0⟩⟩)
    (List.foldl (stepSphere ⟨⟨2.5, 2.999, 2.5⟩, ⟨0, -1, 0⟩⟩) ((1e30 : ℝ), none)
      [⟨⟨1.5, 0.9, 2.5⟩, 0.9, ⟨1.0, 0.1, 0.1⟩⟩, ⟨⟨3.5, 0.9, 3.5⟩, 0.9, ⟨0.1, 0.1, 1.0⟩⟩])
    [⟨⟨0, 1, 0⟩, 0, ⟨0.45, 0.30, 0.15⟩⟩, ⟨⟨0, -1, 0⟩, 3, ⟨1, 1, 1⟩⟩,
     ⟨⟨0, 0, 1⟩, 0, ⟨1, 1, 1⟩⟩, ⟨⟨-1, 0, 0⟩, 5, ⟨1, 1, 1⟩⟩,
     ⟨⟨1, 0, 0⟩, 0, ⟨1, 1, 1⟩⟩]).2 = _
  rw [hsph, hpla]

theorem cex8_shadeFloor :
    shade cexSceneC8 ⟨2.5, 0, 2.5⟩ ⟨0, 1, 0⟩ ⟨0.45, 0.30, 0.15⟩ ⟨0, 1, 0⟩ =
      ⟨0.75, 0.6, 0.45⟩ := by
  have hLv : cexSceneC8.lightPos - (⟨2.5, 0, 2.5⟩ : Vec3) = ⟨0, 2, 0⟩ := by
    apply Vec3.ext <;> norm_num [cexSceneC8]
  have hL : normalize (⟨0, 2, 0⟩ : Vec3) = ⟨0, 1, 0⟩ :=
    normalize_eval _ 2 _ (by norm_num) (by norm_num [dot]) (by norm_num)
      (by apply Vec3.ext <;> norm_num)
  have hLd : length (⟨0, 2, 0⟩ : Vec3) = 2 :=
    length_of_sq (by norm_num) (by norm_num [dot])
  have hsro : (⟨2.5, 0, 2.5⟩ : Vec3) + (1e-3 : ℝ) • (⟨0, 1, 0⟩ : Vec3) =
      ⟨2.5, 1e-3, 2.5⟩ := by
    apply Vec3.ext <;> norm_num
  have hns : ¬ inShadowP cexSceneC8.spheres cexSceneC8.planes
      ⟨(⟨2.5, 0, 2.5⟩ : Vec3) + (1e-3 : ℝ) • (⟨0, 1, 0⟩ : Vec3),
        normalize (cexSceneC8.lightPos - ⟨2.5, 0, 2.5⟩)⟩
      (length (cexSceneC8.lightPos - ⟨2.5, 0, 2.5⟩)) := by
    rw [hLv, hL, hLd, hsro]
    rintro (⟨s, hm, t, nn, heq, -⟩ | ⟨p, hm, t, nn, heq, hlt⟩)
    · have hm' : s ∈ [(⟨⟨1.5, 0.9, 2.5⟩, 0.9, ⟨1.0, 0.1, 0.1⟩⟩ : Sphere),
        ⟨⟨3.5, 0.9, 3.5⟩, 0.9, ⟨0.1, 0.1, 1.0⟩⟩] := hm
      rcases (show s = (⟨⟨1.5, 0.9, 2.5⟩, 0.9, ⟨1.0, 0.1, 0.1⟩⟩ : Sphere) ∨
          s = ⟨⟨3.5, 0.9, 3.5⟩, 0.9, ⟨0.1, 0.1, 1.0⟩⟩ by simpa using hm')
        with rfl | rfl
      · rw [cex8_mRU_s1] at heq
        exact Option.noConfusion heq
      · rw [cex8_mRU_s2] at heq
        exact Option.noConfusion heq
    · have hm' : p ∈ [(⟨⟨0, 1, 0⟩, 0, ⟨0.45, 0.30, 0.15⟩⟩ : Plane),
        ⟨⟨0, -1, 0⟩, 3, ⟨1, 1, 1⟩⟩, ⟨⟨0, 0, 1⟩, 0, ⟨1, 1, 1⟩⟩,
        ⟨⟨-1, 0, 0⟩, 5, ⟨1, 1, 1⟩⟩, ⟨⟨1, 0, 0⟩, 0, ⟨1, 1, 1⟩⟩] := hm
      rcases (show p = (⟨⟨0, 1, 0⟩, 0, ⟨0.45, 0.30, 0.15⟩⟩ : Plane) ∨
          p = ⟨⟨0, -1, 0⟩, 3, ⟨1, 1, 1⟩⟩ ∨ p = ⟨⟨0, 0, 1⟩, 0, ⟨1, 1, 1⟩⟩ ∨
          p = ⟨⟨-1, 0, 0⟩, 5, ⟨1, 1, 1⟩⟩ ∨ p = ⟨⟨1, 0, 0⟩, 0, ⟨1, 1, 1⟩⟩
            by simpa using hm')
        with rfl | rfl | rfl | rfl | rfl
      · rw [cex8_mRU_floor] at heq
        exact Option.noConfusion heq
      · rw [cex8_iRU_ceiling] at heq
        injection heq with hpair
        injection hpair with h1 h2
        rw [← h1] at hlt
        norm_num at hlt
      · rw [cex8_mRU_back] at heq
        exact Option.noConfusion heq
      · rw [cex8_mRU_right] at heq
        exact Option.noConfusion heq
      · rw [cex8_mRU_left] at heq
        exact Option.noConfusion heq
  rw [shade_of_not_shadow hns, hLv, hL]
  have hplus : (⟨0, 1, 0⟩ : Vec3) + (⟨0, 1, 0⟩ : Vec3) = ⟨0, 2, 0⟩ := by
    apply Vec3.ext <;> norm_num
  rw [hplus, hL]
  have hd11 : dot (⟨0, 1, 0⟩ : Vec3) (⟨0, 1, 0⟩ : Vec3) = 1 := by norm_num [dot]
  rw [hd11, show max (0 : ℝ) 1 = 1 from by norm_num]
  have harg : ((0.2 + 1 * 0.8 : ℝ)) • (⟨0.45, 0.30, 0.15⟩ : Vec3) +
      (((1 : ℝ) ^ (32 : ℕ) * 0.3)) • (⟨1, 1, 1⟩ : Vec3) = ⟨0.75, 0.6, 0.45⟩ := by
    apply Vec3.ext <;> norm_num
  rw [harg]
  apply Vec3.ext <;> norm_num [clamp01, clamp01c]

theorem cex8_shadeCeil :
    shade cexSceneC8 ⟨2.5, 3, 2.5⟩ ⟨0, -1, 0⟩ ⟨1, 1, 1⟩ ⟨0, -1, 0⟩ = ⟨1, 1, 1⟩ := by
  have hLv : cexSceneC8.lightPos - (⟨2.5, 3, 2.5⟩ : Vec3) = ⟨0, -1, 0⟩ := by
    apply Vec3.ext <;> norm_num [cexSceneC8]
  have hL : normalize (⟨0, -1, 0⟩ : Vec3) = ⟨0, -1, 0⟩ :=
    normalize_eval _ 1 _ one_pos (by norm_num [dot]) (by norm_num)
      (by apply Vec3.ext <;> norm_num)
  have hLd : length (⟨0, -1, 0⟩ : Vec3) = 1 :=
    length_of_sq (by norm_num) (by norm_num [dot])
  have hsro : (⟨2.5, 3, 2.5⟩ : Vec3) + (1e-3 : ℝ) • (⟨0, -1, 0⟩ : Vec3) =
      ⟨2.5, 2.999, 2.5⟩ := by
    apply Vec3.ext <;> norm_num
  have hns : ¬ inShadowP cexSceneC8.spheres cexSceneC8.planes
      ⟨(⟨2.5, 3, 2.5⟩ : Vec3) + (1e-3 : ℝ) • (⟨0, -1, 0⟩ : Vec3),
        normalize (cexSceneC8.lightPos - ⟨2.5, 3, 2.5⟩)⟩
      (length (cexSceneC8.lightPos - ⟨2.5, 3, 2.5⟩)) := by
    rw [hLv, hL, hLd, hsro]
    rintro (⟨s, hm, t, nn, heq, -⟩ | ⟨p, hm, t, nn, heq, hlt⟩)
    · have hm' : s ∈ [(⟨⟨1.5, 0.9, 2.5⟩, 0.9, ⟨1.0, 0.1, 0.1⟩⟩ : Sphere),
        ⟨⟨3.5, 0.9, 3.5⟩, 0.9, ⟨0.1, 0.1, 1.0⟩⟩] := hm
      rcases (show s = (⟨⟨1.5, 0.9, 2.5⟩, 0.9, ⟨1.0, 0.1, 0.1⟩⟩ : Sphere) ∨
          s = ⟨⟨3.5, 0.9, 3.5⟩, 0.9, ⟨0.1, 0.1, 1.0⟩⟩ by simpa using hm')
        with rfl | rfl
      · rw [cex8_mRD_s1] at heq
        exact Option.noConfusion heq
      · rw [cex8_mRD_s2] at heq
        exact Option.noConfusion heq
    · have hm' : p ∈ [(⟨⟨0, 1, 0⟩, 0, ⟨0.45, 0.30, 0.15⟩⟩ : Plane),
        ⟨⟨0, -1, 0⟩, 3, ⟨1, 1, 1⟩⟩, ⟨⟨0, 0, 1⟩, 0, ⟨1, 1, 1⟩⟩,
        ⟨⟨-1, 0, 0⟩, 5, ⟨1, 1, 1⟩⟩, ⟨⟨1, 0, 0⟩, 0, ⟨1, 1, 1⟩⟩] := hm
      rcases (show p = (⟨⟨0, 1, 0⟩, 0, ⟨0.45, 0.30, 0.15⟩⟩ : Plane) ∨
          p = ⟨⟨0, -1, 0⟩, 3, ⟨1, 1, 1⟩⟩ ∨ p = ⟨⟨0, 0, 1⟩, 0, ⟨1, 1, 1⟩⟩ ∨
          p = ⟨⟨-1, 0, 0⟩, 5, ⟨1, 1, 1⟩⟩ ∨ p = ⟨⟨1, 0, 0⟩, 0, ⟨1, 1, 1⟩⟩
            by simpa using hm')
        with rfl | rfl | rfl | rfl | rfl
      · rw [cex8_iRD_floor] at heq
        injection heq with hpair
        injection hpair with h1 h2
        rw [← h1] at hlt
        norm_num at hlt
      · rw [cex8_mRD_ceiling] at heq
        exact Option.noConfusion heq
      · rw [cex8_mRD_back] at heq
        exact Option.noConfusion heq
      · rw [cex8_mRD_right] at heq
        exact Option.noConfusion heq
      · rw [cex8_mRD_left] at heq
        exact Option.noConfusion heq
  rw [shade_of_not_shadow hns, hLv, hL]
  have hplus : (⟨0, -1, 0⟩ : Vec3) + (⟨0, -1, 0⟩ : Vec3) = ⟨0, -2, 0⟩ := by
    apply Vec3.ext <;> norm_num
  have hHn : normalize (⟨0, -2, 0⟩ : Vec3) = ⟨0, -1, 0⟩ :=
    normalize_eval _ 2 _ (by norm_num) (by norm_num [dot]) (by norm_num)
      (by apply Vec3.ext <;> norm_num)
  rw [hplus, hHn]
  have hd11 : dot (⟨0, -1, 0⟩ : Vec3) (⟨0, -1, 0⟩ : Vec3) = 1 := by norm_num [dot]
  rw [hd11, show max (0 : ℝ) 1 = 1 from by norm_num]
  have harg : ((0.2 + 1 * 0.8 : ℝ)) • (⟨1, 1, 1⟩ : Vec3) +
      (((1 : ℝ) ^ (32 : ℕ) * 0.3)) • (⟨1, 1, 1⟩ : Vec3) = ⟨1.3, 1.3, 1.3⟩ := by
    apply Vec3.ext <;> norm_num
  rw [harg]
  apply Vec3.ext <;> norm_num [clamp01, clamp01c]

theorem cex8_trace2 :
    trace cexSceneC8 ⟨⟨2.5, 2.999, 2.5⟩, ⟨0, -1, 0⟩⟩ 2 = ⟨0.75, 0.6, 0.45⟩ := by
  rw [trace_some cex8_nhRD,
    if_neg (by rintro ⟨h2, -⟩; exact absurd h2 (by decide))]
  have hloc : localColorOf cexSceneC8 ⟨⟨2.5, 2.999, 2.5⟩, ⟨0, -1, 0⟩⟩
      ⟨2.999, ⟨0, 1, 0⟩, ⟨0.45, 0.30, 0.15⟩, 0.05⟩ = ⟨0.75, 0.6, 0.45⟩ := by
    rw [localColorOf]
    show shade cexSceneC8
      ((⟨⟨2.5, 2.999, 2.5⟩, ⟨0, -1, 0⟩⟩ : Ray).o +
        (2.999 : ℝ) • (⟨⟨2.5, 2.999, 2.5⟩, ⟨0, -1, 0⟩⟩ : Ray).d)
      ⟨0, 1, 0⟩ ⟨0.45, 0.30, 0.15⟩
      (normalize ((-1 : ℝ) • (⟨⟨2.5, 2.999, 2.5⟩, ⟨0, -1, 0⟩⟩ : Ray).d)) = _
    have hhp : (⟨⟨2.5, 2.999, 2.5⟩, ⟨0, -1, 0⟩⟩ : Ray).o +
        (2.999 : ℝ) • (⟨⟨2.5, 2.999, 2.5⟩, ⟨0, -1, 0⟩⟩ : Ray).d = ⟨2.5, 0, 2.5⟩ := by
      apply Vec3.ext <;> norm_num
    have hvd : normalize ((-1 : ℝ) • (⟨⟨2.5, 2.999, 2.5⟩, ⟨0, -1, 0⟩⟩ : Ray).d) =
        ⟨0, 1, 0⟩ := by
      have h' : (-1 : ℝ) • (⟨⟨2.5, 2.999, 2.5⟩, ⟨0, -1, 0⟩⟩ : Ray).d = ⟨0, 1, 0⟩ := by
        apply Vec3.ext <;> norm_num
      rw [h']
      exact normalize_eval _ 1 _ one_pos (by norm_num [dot]) (by norm_num)
        (by apply Vec3.ext <;> norm_num)
    rw [hhp, hvd]
    exact cex8_shadeFloor
  rw [hloc]
  apply Vec3.ext <;> norm_num [clamp01, clamp01c]

theorem cex8_trace1 :
    trace cexSceneC8 ⟨⟨2.5, 1e-3, 2.5⟩, ⟨0, 1, 0⟩⟩ 1 = ⟨0.9875, 0.98, 0.9725⟩ := by
  rw [trace_some cex8_nhRU,
    if_pos ⟨by decide, by show (0 : ℝ) < 0.05; norm_num⟩]
  have hrefl : reflRayOf ⟨⟨2.5, 1e-3, 2.5⟩, ⟨0, 1, 0⟩⟩
      ⟨2.999, ⟨0, -1, 0⟩, ⟨1, 1, 1⟩, 0.05⟩ = ⟨⟨2.5, 2.999, 2.5⟩, ⟨0, -1, 0⟩⟩ := by
    rw [reflRayOf]
    show (⟨((⟨⟨2.5, 1e-3, 2.5⟩, ⟨0, 1, 0⟩⟩ : Ray).o +
        (2.999 : ℝ) • (⟨⟨2.5, 1e-3, 2.5⟩, ⟨0, 1, 0⟩⟩ : Ray).d) +
        (1e-3 : ℝ) • (⟨0, -1, 0⟩ : Vec3),
      normalize ((⟨⟨2.5, 1e-3, 2.5⟩, ⟨0, 1, 0⟩⟩ : Ray).d -
        (2 * dot (⟨⟨2.5, 1e-3, 2.5⟩, ⟨0, 1, 0⟩⟩ : Ray).d ⟨0, -1, 0⟩) •
          (⟨0, -1, 0⟩ : Vec3))⟩ : Ray) = _
    have ho : ((⟨⟨2.5, 1e-3, 2.5⟩, ⟨0, 1, 0⟩⟩ : Ray).o +
        (2.999 : ℝ) • (⟨⟨2.5, 1e-3, 2.5⟩, ⟨0, 1, 0⟩⟩ : Ray).d) +
        (1e-3 : ℝ) • (⟨0, -1, 0⟩ : Vec3) = ⟨2.5, 2.999, 2.5⟩ := by
      apply Vec3.ext <;> norm_num
    have hd' : (⟨⟨2.5, 1e-3, 2.5⟩, ⟨0, 1, 0⟩⟩ : Ray).d -
        (2 * dot (⟨⟨2.5, 1e-3, 2.5⟩, ⟨0, 1, 0⟩⟩ : Ray).d ⟨0, -1, 0⟩) •
          (⟨0, -1, 0⟩ : Vec3) = ⟨0, -1, 0⟩ := by
      apply Vec3.ext <;> norm_num [dot]
    rw [ho, hd']
    rw [normalize_eval ⟨0, -1, 0⟩ 1 ⟨0, -1, 0⟩ one_pos (by norm_num [dot])
      (by norm_num) (by apply Vec3.ext <;> norm_num)]
  have hloc : localColorOf cexSceneC8 ⟨⟨2.5, 1e-3, 2.5⟩, ⟨0, 1, 0⟩⟩
      ⟨2.999, ⟨0, -1, 0⟩, ⟨1, 1, 1⟩, 0.05⟩ = ⟨1, 1, 1⟩ := by
    rw [localColorOf]
    show shade cexSceneC8
      ((⟨⟨2.5, 1e-3, 2.5⟩, ⟨0, 1, 0⟩⟩ : Ray).o +
        (2.999 : ℝ) • (⟨⟨2.5, 1e-3, 2.5⟩, ⟨0, 1, 0⟩⟩ : Ray).d)
      ⟨0, -1, 0⟩ ⟨1, 1, 1⟩
      (normalize ((-1 : ℝ) • (⟨⟨2.5, 1e-3, 2.5⟩, ⟨0, 1, 0⟩⟩ : Ray).d)) = _
    have hhp : (⟨⟨2.5, 1e-3, 2.5⟩, ⟨0, 1, 0⟩⟩ : Ray).o +
        (2.999 : ℝ) • (⟨⟨2.5, 1e-3, 2.5⟩, ⟨0, 1, 0⟩⟩ : Ray).d = ⟨2.5, 3, 2.5⟩ := by
      apply Vec3.ext <;> norm_num
    have hvd : normalize ((-1 : ℝ) • (⟨⟨2.5, 1e-3, 2.5⟩, ⟨0, 1, 0⟩⟩ : Ray).d) =
        ⟨0, -1, 0⟩ := by
      have h' : (-1 : ℝ) • (⟨⟨2.5, 1e-3, 2.5⟩, ⟨0, 1, 0⟩⟩ : Ray).d = ⟨0, -1, 0⟩ := by
        apply Vec3.ext <;> norm_num
      rw [h']
      exact normalize_eval _ 1 _ one_pos (by norm_num [dot]) (by norm_num)
        (by apply Vec3.ext <;> norm_num)
    rw [hhp, hvd]
    exact cex8_shadeCeil
  rw [hrefl, show (1 : ℕ) + 1 = 2 from rfl, cex8_trace2, hloc]
  show clamp01 ((1 - (0.05 : ℝ)) • (⟨1, 1, 1⟩ : Vec3) +
    (0.05 : ℝ) • (⟨0.75, 0.6, 0.45⟩ : Vec3)) = _
  have harg : (1 - (0.05 : ℝ)) • (⟨1, 1, 1⟩ : Vec3) +
      (0.05 : ℝ) • (⟨0.75, 0.6, 0.45⟩ : Vec3) = ⟨0.9875, 0.98, 0.9725⟩ := by
    apply Vec3.ext <;> norm_num
  rw [harg]
  apply Vec3.ext <;> norm_num [clamp01, clamp01c]

/-! ### Claims -/

/-- C2: `intersect_plane` fails exactly when the ray is (near-)parallel to the
plane (`|dot(n,d)| < 1e-6`, so in particular whenever `dot(n,d) = 0`), or the
solved `t = -(dot(n,o)+d)/dot(n,d)` is below `1e-4`, or the hit point lies
outside the room box widened by `1e-3`; otherwise it returns that `t` together
with the plane's fixed inward normal. -/
theorem C2_plane_intersection (ray : Ray) (pl : Plane) :
    (dot pl.n ray.d = 0 → intersect_plane ray pl = none) ∧
    (intersect_plane ray pl = none ↔
      |dot pl.n ray.d| < 1e-6 ∨ planeT ray pl < 1e-4 ∨
        ¬ inRoomBox (ray.o + planeT ray pl • ray.d)) ∧
    (¬ (|dot pl.n ray.d| < 1e-6 ∨ planeT ray pl < 1e-4 ∨
        ¬ inRoomBox (ray.o + planeT ray pl • ray.d)) →
      intersect_plane ray pl = some (planeT ray pl, pl.n)) := by
  refine ⟨?_, ?_, ?_⟩
  · intro h
    rw [intersect_plane_eq, if_pos]
    rw [h]
    norm_num
  · rw [intersect_plane_eq]
    by_cases h1 : |dot pl.n ray.d| < 1e-6
    · simp [h1]
    · rw [if_neg h1]
      by_cases h2 : planeT ray pl < 1e-4
      · simp [h1, h2]
      · rw [if_neg h2]
        by_cases h3 : inRoomBox (ray.o + planeT ray pl • ray.d)
        · rw [if_neg (not_not_intro h3)]
          simp [h1, h2, h3]
        · rw [if_pos h3]
          simp [h3]
  · intro h
    push_neg at h
    obtain ⟨h1, h2, h3⟩ := h
    rw [intersect_plane_eq, if_neg (not_lt.2 h1), if_neg (not_lt.2 h2),
      if_neg (not_not_intro h3)]

/-- C2 witness: the parallel case and a concrete floor hit. -/
theorem C2_plane_intersection_witness :
    intersect_plane ⟨⟨2.5, 1, 2.5⟩, ⟨1, 0, 0⟩⟩ ⟨⟨0, 1, 0⟩, 0, ⟨0.45, 0.30, 0.15⟩⟩ = none ∧
    intersect_plane ⟨⟨2.5, 1, 2.5⟩, ⟨0, -1, 0⟩⟩ ⟨⟨0, 1, 0⟩, 0, ⟨0.45, 0.30, 0.15⟩⟩ =
      some (planeT ⟨⟨2.5, 1, 2.5⟩, ⟨0, -1, 0⟩⟩ ⟨⟨0, 1, 0⟩, 0, ⟨0.45, 0.30, 0.15⟩⟩,
        ⟨0, 1, 0⟩) := by
  constructor
  · exact (C2_plane_intersection _ _).1 (by norm_num [dot])
  · refine (C2_plane_intersection _ _).2.2 ?_
    have ht : planeT ⟨⟨2.5, 1, 2.5⟩, ⟨0, -1, 0⟩⟩ ⟨⟨0, 1, 0⟩, 0, ⟨0.45, 0.30, 0.15⟩⟩ = 1 := by
      norm_num [planeT, dot]
    push_neg
    refine ⟨by norm_num [dot], by rw [ht]; norm_num, ?_⟩
    rw [ht]
    norm_num [inRoomBox]

/-- C1 (amended): for every ray with a nondegenerate direction
(`dot(d,d) > 0`) and every sphere of radius `r > 1e-4` (instead of `r > 0`):
`t0 = (-b-sqrt(disc))/(2a)` is the smaller and `t1` the larger root of
`a·t² + b·t + c = 0`; `intersect_sphere` reports no hit exactly when the
discriminant is negative or both roots are below `1e-4`; and on success it
returns the smaller root when it is at least `1e-4` (else the larger root)
together with the outward unit normal `(hitPoint - center)/r`. -/
theorem C1_sphere_intersection (ray : Ray) (s : Sphere)
    (ha : 0 < dot ray.d ray.d) (hr : 1e-4 < s.radius) :
    sphT0 ray s ≤ sphT1 ray s ∧
    (intersect_sphere ray s = none ↔
      sphereDisc ray s < 0 ∨ (sphT0 ray s < 1e-4 ∧ sphT1 ray s < 1e-4)) ∧
    (0 ≤ sphereDisc ray s →
      dot ray.d ray.d * sphT0 ray s ^ 2 + 2 * dot (ray.o - s.center) ray.d * sphT0 ray s +
        (dot (ray.o - s.center) (ray.o - s.center) - s.radius * s.radius) = 0 ∧
      dot ray.d ray.d * sphT1 ray s ^ 2 + 2 * dot (ray.o - s.center) ray.d * sphT1 ray s +
        (dot (ray.o - s.center) (ray.o - s.center) - s.radius * s.radius) = 0) ∧
    (¬ sphereDisc ray s < 0 → ¬ (sphT0 ray s < 1e-4 ∧ sphT1 ray s < 1e-4) →
      intersect_sphere ray s =
        some ((if 1e-4 ≤ sphT0 ray s then sphT0 ray s else sphT1 ray s),
          s.radius⁻¹ • (ray.o +
            (if 1e-4 ≤ sphT0 ray s then sphT0 ray s else sphT1 ray s) • ray.d -
              s.center))) := by
  have hrpos : (0 : ℝ) < s.radius := by linarith
  have hrr : (1e-8 : ℝ) < s.radius * s.radius := by nlinarith
  have hT01 : sphT0 ray s ≤ sphT1 ray s := by
    rw [sphT0, sphT1]
    have h2a : (0 : ℝ) < sphereDivisor ray := by
      rw [sphereDivisor]; linarith
    exact div_le_div_of_nonneg_right
      (by linarith [Real.sqrt_nonneg (sphereDisc ray s)]) h2a.le
  refine ⟨hT01, ?_, ?_, ?_⟩
  · simp only [intersect_sphere]
    by_cases hdneg : sphereDisc ray s < 0
    · simp [hdneg]
    · by_cases h0 : sphT0 ray s < 1e-4
      · by_cases h1 : sphT1 ray s < 1e-4
        · simp [hdneg, h0, h1]
        · simp [hdneg, h0, h1]
      · simp [hdneg, h0]
  · intro hd
    exact ⟨sphT0_root ray s (ne_of_gt ha) hd, sphT1_root ray s (ne_of_gt ha) hd⟩
  · intro hdneg hts
    have hd : 0 ≤ sphereDisc ray s := not_lt.1 hdneg
    by_cases h0 : sphT0 ray s < 1e-4
    · have h1 : ¬ sphT1 ray s < 1e-4 := fun h1 => hts ⟨h0, h1⟩
      have hval : normalize (ray.o + sphT1 ray s • ray.d - s.center) =
          s.radius⁻¹ • (ray.o + sphT1 ray s • ray.d - s.center) :=
        normalize_of_sq hrpos
          (sphere_hit_dot ray s _ (sphT1_root ray s (ne_of_gt ha) hd)) hrr
      rw [if_neg (not_le.2 h0)]
      simp only [intersect_sphere]
      rw [if_neg hdneg]
      simp only [if_pos h0]
      rw [if_neg h1, hval]
    · have hval : normalize (ray.o + sphT0 ray s • ray.d - s.center) =
          s.radius⁻¹ • (ray.o + sphT0 ray s • ray.d - s.center) :=
        normalize_of_sq hrpos
          (sphere_hit_dot ray s _ (sphT0_root ray s (ne_of_gt ha) hd)) hrr
      rw [if_pos (not_lt.1 h0)]
      simp only [intersect_sphere]
      rw [if_neg hdneg]
      simp only [if_neg h0]
      rw [hval]

/-- C1 counterexample: the claim as stated (any radius `r > 0`) is false: a
sphere of radius `1e-5` is hit at `t = 1 - 1e-5 ≥ 1e-4`, but the returned
normal is the zero vector produced by `normalize`'s degenerate-length guard
(`dot(v,v) = 1e-10 ≤ 1e-8`), not the claimed outward unit normal
`(hitPoint - center)/r = (-1, 0, 0)`. -/
theorem C1_sphere_intersection_cex :
    intersect_sphere ⟨⟨0, 0, 0⟩, ⟨1, 0, 0⟩⟩ ⟨⟨1, 0, 0⟩, 1e-5, ⟨1, 1, 1⟩⟩ =
      some (1 - 1e-5, ⟨0, 0, 0⟩) ∧
    ((1e-5 : ℝ))⁻¹ • ((⟨0, 0, 0⟩ : Vec3) + (1 - 1e-5 : ℝ) • (⟨1, 0, 0⟩ : Vec3) -
      ⟨1, 0, 0⟩) = (⟨-1, 0, 0⟩ : Vec3) ∧
    (⟨0, 0, 0⟩ : Vec3) ≠ (⟨-1, 0, 0⟩ : Vec3) := by
  have hdisc : sphereDisc ⟨⟨0, 0, 0⟩, ⟨1, 0, 0⟩⟩ ⟨⟨1, 0, 0⟩, 1e-5, ⟨1, 1, 1⟩⟩ = 4e-10 := by
    norm_num [sphereDisc, dot]
  have hsd : Real.sqrt (4e-10) = 2e-5 := by
    rw [show (4e-10 : ℝ) = 2e-5 * 2e-5 by norm_num, Real.sqrt_mul_self (by norm_num)]
  have ht0 : sphT0 ⟨⟨0, 0, 0⟩, ⟨1, 0, 0⟩⟩ ⟨⟨1, 0, 0⟩, 1e-5, ⟨1, 1, 1⟩⟩ = 1 - 1e-5 := by
    rw [sphT0, hdisc, hsd, sphereDivisor]
    norm_num [dot]
  refine ⟨?_, ?_, ?_⟩
  · simp only [intersect_sphere, hdisc, ht0]
    rw [if_neg (by norm_num), if_neg (by norm_num), if_neg (by norm_num)]
    rw [normalize_eq_zero_of_small (by norm_num [dot])]
  · apply Vec3.ext <;> norm_num
  · intro h
    have hx := congrArg Vec3.x h
    norm_num at hx

/-- C1 witness: a unit ray hitting the unit sphere (radius `1 > 1e-4`,
`dot(d,d) = 1 > 0`). -/
theorem C1_sphere_intersection_witness :
    sphT0 ⟨⟨3, 0, 0⟩, ⟨-1, 0, 0⟩⟩ ⟨⟨0, 0, 0⟩, 1, ⟨1, 0.1, 0.1⟩⟩ ≤
      sphT1 ⟨⟨3, 0, 0⟩, ⟨-1, 0, 0⟩⟩ ⟨⟨0, 0, 0⟩, 1, ⟨1, 0.1, 0.1⟩⟩ :=
  (C1_sphere_intersection _ _ (by norm_num [dot]) (by norm_num)).1

/-- C10: every division in the kernel is guarded or made safe by a
precondition: `normalize` divides only when `dot(v,v) > 1e-8` (returning the
zero vector otherwise), `intersect_plane` bails out when `|dot(n,d)| < 1e-6`,
and `intersect_sphere` divides by `2*a` with no zero check — equal to `2` (so
nonzero) for unit directions, while for a zero direction the divisor is `0`
and the discriminant test does not return early, so the unguarded division is
reached. -/
theorem C10_division_guards :
    (∀ v : Vec3, dot v v ≤ 1e-8 → normalize v = ⟨0, 0, 0⟩) ∧
    (∀ v : Vec3, 1e-8 < dot v v → normalize v = (Real.sqrt (dot v v))⁻¹ • v) ∧
    (∀ (ray : Ray) (pl : Plane), |dot pl.n ray.d| < 1e-6 →
      intersect_plane ray pl = none) ∧
    (∀ ray : Ray, dot ray.d ray.d = 1 → sphereDivisor ray = 2 ∧ sphereDivisor ray ≠ 0) ∧
    (∀ (o : Vec3) (s : Sphere), sphereDivisor ⟨o, ⟨0, 0, 0⟩⟩ = 0 ∧
      ¬ sphereDisc ⟨o, ⟨0, 0, 0⟩⟩ s < 0) := by
  refine ⟨?_, ?_, ?_, ?_, ?_⟩
  · intro v h
    rw [normalize, if_pos h]
  · intro v h
    rw [normalize, if_neg (not_le.2 h)]
  · intro ray pl h
    rw [intersect_plane, if_pos h]
  · intro ray h
    rw [sphereDivisor, h]
    norm_num
  · intro o s
    constructor
    · simp [sphereDivisor, dot]
    · simp [sphereDisc, dot]

/-- C10 witness: concrete instances of each guard. -/
theorem C10_division_guards_witness :
    normalize ⟨0, 0, 0⟩ = ⟨0, 0, 0⟩ ∧
    normalize ⟨2, 0, 0⟩ = (Real.sqrt (dot ⟨2, 0, 0⟩ ⟨2, 0, 0⟩))⁻¹ • (⟨2, 0, 0⟩ : Vec3) ∧
    intersect_plane ⟨⟨2.5, 1, 2.5⟩, ⟨1, 0, 0⟩⟩ ⟨⟨0, 1, 0⟩, 0, ⟨1, 1, 1⟩⟩ = none ∧
    (sphereDivisor ⟨⟨0, 0, 0⟩, ⟨1, 0, 0⟩⟩ = 2 ∧ sphereDivisor ⟨⟨0, 0, 0⟩, ⟨1, 0, 0⟩⟩ ≠ 0) ∧
    (sphereDivisor ⟨⟨1, 2, 3⟩, ⟨0, 0, 0⟩⟩ = 0 ∧
      ¬ sphereDisc ⟨⟨1, 2, 3⟩, ⟨0, 0, 0⟩⟩ ⟨⟨0, 0, 0⟩, 1, ⟨1, 1, 1⟩⟩ < 0) :=
  ⟨C10_division_guards.1 _ (by norm_num [dot]),
   C10_division_guards.2.1 _ (by norm_num [dot]),
   C10_division_guards.2.2.1 _ _ (by norm_num [dot]),
   C10_division_guards.2.2.2.1 _ (by norm_num [dot]),
   C10_division_guards.2.2.2.2 _ _⟩

/-- C4: `render_scene` produces exactly `width·height·3` bytes; the 3 bytes
of pixel `(x, y)` sit at offset `(y·width + x)·3` and each equals
`⌊c·255⌋` for the corresponding channel of
`c = clamp01(trace(ray, 0))`, where the primary ray starts at the camera
position with direction
`normalize(forward + u·right + v·up)`,
`u = (2·(x+0.5)/width - 1)·aspect·tan(fov/2)` and
`v = (2·(y+0.5)/height - 1)·tan(fov/2)`.  Each byte is a pure function of
`(scene, w, h, x, y)` alone, so every pixel is written exactly once and
depends on no other pixel. -/
theorem C4_render_buffer (S : Scene) (w h x y k : ℕ)
    (hx : x < w) (hy : y < h) (hk : k < 3) :
    (render_scene S w h).length = w * h * 3 ∧
    (render_scene S w h)[(y * w + x) * 3 + k]? =
      some ⌊chanR k (clamp01 (trace S (pixelRay S w h x y) 0)) * 255⌋ ∧
    pixelRay S w h x y = ⟨S.camPos, normalize (camForward S +
      ((2 * (((x : ℝ) + 0.5) / (w : ℝ)) - 1) * ((w : ℝ) / (h : ℝ)) *
        Real.tan (fov * 0.5)) • camRight S +
      ((2 * (((y : ℝ) + 0.5) / (h : ℝ)) - 1) * Real.tan (fov * 0.5)) • camUp S)⟩ := by
  have hlen_inner : ∀ y' ∈ List.range h,
      ((List.range w).flatMap fun x' => pixelBytes S w h x' y').length = w * 3 := by
    intro y' _
    rw [length_flatMap_const (fun x' => pixelBytes S w h x' y') 3 _ (fun x' _ => rfl),
      List.length_range]
  refine ⟨?_, ?_, rfl⟩
  · rw [render_scene, length_flatMap_const _ (w * 3) _ hlen_inner, List.length_range]
    ring
  · rw [render_scene,
      show (y * w + x) * 3 + k = y * (w * 3) + (x * 3 + k) from by ring,
      getElem?_flatMap_const _ (w * 3) _ y (x * 3 + k) y hlen_inner
        (List.getElem?_range hy) (by omega),
      getElem?_flatMap_const (fun x' => pixelBytes S w h x' y) 3 _ x k x
        (fun z _ => rfl) (List.getElem?_range hx) hk]
    interval_cases k <;> simp [pixelBytes, chanR]

/-- C4 witness: a 2×2 buffer of the initial scene has `2·2·3` bytes. -/
theorem C4_render_buffer_witness :
    (render_scene initScene 2 2).length = 2 * 2 * 3 :=
  (C4_render_buffer initScene 2 2 1 0 2 (by norm_num) (by norm_num) (by norm_num)).1

/-- C5: when no sphere and no plane of the scene intersects the ray, `trace`
returns exactly the fixed background color `(0.2, 0.3, 0.5)`, at every depth
(`trace` is a total function: it always produces a color). -/
theorem C5_background_on_miss (S : Scene) (ray : Ray) (depth : ℕ)
    (hs : ∀ s ∈ S.spheres, intersect_sphere ray s = none)
    (hp : ∀ p ∈ S.planes, intersect_plane ray p = none) :
    trace S ray depth = background := by
  rw [trace, nearestHit_eq_none hs hp]

/-- C5 witness: in the initial scene, the ray from the camera position pointing
away through the missing front wall misses everything and yields the
background color. -/
theorem C5_background_on_miss_witness :
    trace initScene ⟨⟨2.5, 1.5, 8.0⟩, ⟨0, 0, 1⟩⟩ 0 = background := by
  refine C5_background_on_miss initScene _ 0 ?_ ?_
  · intro s hs
    rw [initScene] at hs
    simp only [initSpheres, List.mem_cons, List.not_mem_nil, or_false] at hs
    rcases hs with rfl | rfl <;>
      exact intersect_sphere_none_of_disc_neg (by norm_num [sphereDisc, dot])
  · intro p hp
    rw [initScene] at hp
    simp only [initPlanes, List.mem_cons, List.not_mem_nil, or_false] at hp
    rcases hp with rfl | rfl | rfl | rfl | rfl <;>
      exact intersect_plane_none_of_t_lt (by norm_num [planeT, dot])

/-- C9 (amended): for a *unit-length* incoming direction `d` (the claim as
stated, for arbitrary `d`, is false because of the `normalize` in the code)
and a unit-length normal `n`, the reflection direction
`normalize(d - 2·dot(d,n)·n)` built by `trace` satisfies
`dot(reflect(d,n), n) = -dot(d,n)` and `|reflect(d,n)| = |d|`. -/
theorem C9_mirror_reflection (o d n : Vec3) (t k : ℝ) (c : Vec3)
    (hd : dot d d = 1) (hn : dot n n = 1) :
    dot (reflRayOf ⟨o, d⟩ ⟨t, n, c, k⟩).d n = -(dot d n) ∧
    length (reflRayOf ⟨o, d⟩ ⟨t, n, c, k⟩).d = length d := by
  have hm : dot (d - (2 * dot d n) • n) (d - (2 * dot d n) • n) = 1 := by
    rw [dot_mirror, hd, hn]
    ring
  have hdir : (reflRayOf ⟨o, d⟩ ⟨t, n, c, k⟩).d =
      (1 : ℝ)⁻¹ • (d - (2 * dot d n) • n) := by
    show normalize (d - (2 * dot d n) • n) = _
    exact normalize_of_sq one_pos (by rw [hm]; ring) (by norm_num)
  constructor
  · rw [hdir, dot_smul_left, dot_mirror_n, hn]
    ring
  · rw [hdir]
    rw [length_of_sq zero_le_one (by rw [dot_smul_both, hm]; norm_num),
      length_of_sq zero_le_one (by rw [hd]; norm_num)]

/-- C9 counterexample: for the non-unit direction `d = (2,0,0)` and unit
normal `n = (0,1,0)`, the code's reflection direction is `normalize`d to
`(1,0,0)`, so its length is `1 ≠ 2 = |d|`: the claim fails for general `d`. -/
theorem C9_mirror_reflection_cex :
    dot (⟨0, 1, 0⟩ : Vec3) (⟨0, 1, 0⟩ : Vec3) = 1 ∧
    (reflRayOf ⟨⟨0, 0, 0⟩, ⟨2, 0, 0⟩⟩ ⟨1, ⟨0, 1, 0⟩, ⟨1, 1, 1⟩, 0⟩).d = ⟨1, 0, 0⟩ ∧
    length (reflRayOf ⟨⟨0, 0, 0⟩, ⟨2, 0, 0⟩⟩ ⟨1, ⟨0, 1, 0⟩, ⟨1, 1, 1⟩, 0⟩).d = 1 ∧
    length (⟨2, 0, 0⟩ : Vec3) = 2 ∧
    (1 : ℝ) ≠ 2 := by
  have harg : (⟨2, 0, 0⟩ : Vec3) - (2 * dot ⟨2, 0, 0⟩ ⟨0, 1, 0⟩) • (⟨0, 1, 0⟩ : Vec3) =
      ⟨2, 0, 0⟩ := by
    apply Vec3.ext <;> norm_num [dot]
  have hdir : (reflRayOf ⟨⟨0, 0, 0⟩, ⟨2, 0, 0⟩⟩ ⟨1, ⟨0, 1, 0⟩, ⟨1, 1, 1⟩, 0⟩).d =
      (⟨1, 0, 0⟩ : Vec3) := by
    show normalize _ = _
    rw [harg, normalize_of_sq (show (0:ℝ) < 2 by norm_num) (by norm_num [dot]) (by norm_num)]
    apply Vec3.ext <;> norm_num
  refine ⟨by norm_num [dot], hdir, ?_, ?_, by norm_num⟩
  · rw [hdir, length_of_sq zero_le_one (by norm_num [dot])]
  · rw [length_of_sq (show (0:ℝ) ≤ 2 by norm_num) (by norm_num [dot])]

/-- C9 witness: the amended claim at the unit direction `(0,0,-1)` and unit
normal `(0,1,0)`. -/
theorem C9_mirror_reflection_witness :
    dot (reflRayOf ⟨⟨0, 0, 5⟩, ⟨0, 0, -1⟩⟩ ⟨1, ⟨0, 1, 0⟩, ⟨1, 1, 1⟩, 0⟩).d ⟨0, 1, 0⟩ =
      -(dot ⟨0, 0, -1⟩ ⟨0, 1, 0⟩) ∧
    length (reflRayOf ⟨⟨0, 0, 5⟩, ⟨0, 0, -1⟩⟩ ⟨1, ⟨0, 1, 0⟩, ⟨1, 1, 1⟩, 0⟩).d =
      length ⟨0, 0, -1⟩ :=
  C9_mirror_reflection _ _ _ _ _ _ (by norm_num [dot]) (by norm_num [dot])

/-- C3: `shade` returns
`clamp01(albedo·(0.2 + diff·0.8) + (1,1,1)·(spec·0.3))` with
`L = normalize(light - hitPoint)`, `diff = max(0, dot(normal, L))`,
`H = normalize(L + viewDir)`, `spec = max(0, dot(normal, H))^32`; when the
shadow ray offset `1e-3` along the normal hits any sphere or plane closer
than the light distance minus `1e-3`, both factors are zeroed and the result
is the pure ambient color `clamp01(0.2·albedo)`. -/
theorem C3_shading (S : Scene) (hitPoint normal albedo viewDir : Vec3) :
    shade S hitPoint normal albedo viewDir =
      if inShadowP S.spheres S.planes
          ⟨hitPoint + (1e-3 : ℝ) • normal, normalize (S.lightPos - hitPoint)⟩
          (length (S.lightPos - hitPoint))
      then clamp01 ((0.2 : ℝ) • albedo)
      else clamp01
        ((0.2 + max 0 (dot normal (normalize (S.lightPos - hitPoint))) * 0.8) • albedo +
          (max 0 (dot normal (normalize (normalize (S.lightPos - hitPoint) + viewDir))) ^
              (32 : ℕ) * 0.3) • (⟨1, 1, 1⟩ : Vec3)) := by
  simp only [shade]
  by_cases hs : inShadowP S.spheres S.planes
      ⟨hitPoint + (1e-3 : ℝ) • normal, normalize (S.lightPos - hitPoint)⟩
      (length (S.lightPos - hitPoint))
  · rw [if_pos hs, if_pos hs, if_pos hs]
    congr 1
    apply Vec3.ext <;> simp
  · rw [if_neg hs, if_neg hs, if_neg hs]

/-- C6: `trace` makes no recursive call once `depth ≥ kMaxDepth = 2` (at most
one shading evaluation there), a primary ray performs at most
`kMaxDepth + 1 = 3` shading evaluations, and with a nearest-hit oracle whose
every answer is a reflective hit (the hypothetical all-reflective scene) a
primary ray performs exactly `kMaxDepth + 1` shading evaluations. -/
theorem C6_recursion_bound :
    (∀ (S : Scene) (ray : Ray) (depth : ℕ), kMaxDepth ≤ depth →
      shadeEvals S ray depth ≤ 1) ∧
    (∀ (S : Scene) (ray : Ray), shadeEvals S ray 0 ≤ kMaxDepth + 1) ∧
    (∀ f : Ray → Option Hit, (∀ r, ∃ h, f r = some h ∧ 0 < h.refl) →
      ∀ ray : Ray, shadeEvalsWith f ray 0 = kMaxDepth + 1) := by
  have hle : ∀ (f : Ray → Option Hit) (n : ℕ) (ray : Ray) (d : ℕ),
      kMaxDepth - d ≤ n → shadeEvalsWith f ray d ≤ n + 1 := by
    intro f n
    induction n with
    | zero =>
      intro ray d hd
      rcases hf : f ray with _ | hit
      · rw [shadeEvalsWith_none hf]
        omega
      · have hnc : ¬ (d < kMaxDepth ∧ 0 < hit.refl) := by
          rintro ⟨h1, -⟩
          omega
        rw [shadeEvalsWith_some hf, if_neg hnc]
    | succ n ih =>
      intro ray d hd
      rcases hf : f ray with _ | hit
      · rw [shadeEvalsWith_none hf]
        omega
      · rw [shadeEvalsWith_some hf]
        by_cases hc : d < kMaxDepth ∧ 0 < hit.refl
        · rw [if_pos hc]
          have := ih (reflRayOf ray hit) (d + 1) (by omega)
          omega
        · rw [if_neg hc]
          omega
  have hexact : ∀ (f : Ray → Option Hit), (∀ r, ∃ h, f r = some h ∧ 0 < h.refl) →
      ∀ (n : ℕ) (ray : Ray) (d : ℕ), d + n = kMaxDepth →
        shadeEvalsWith f ray d = n + 1 := by
    intro f hall n
    induction n with
    | zero =>
      intro ray d hd
      obtain ⟨hit, hf, hrefl⟩ := hall ray
      have hnc : ¬ (d < kMaxDepth ∧ 0 < hit.refl) := by
        rintro ⟨h1, -⟩
        omega
      rw [shadeEvalsWith_some hf, if_neg hnc]
    | succ n ih =>
      intro ray d hd
      obtain ⟨hit, hf, hrefl⟩ := hall ray
      rw [shadeEvalsWith_some hf, if_pos ⟨by omega, hrefl⟩,
        ih (reflRayOf ray hit) (d + 1) (by omega)]
      omega
  refine ⟨?_, ?_, ?_⟩
  · intro S ray depth hdep
    exact hle (nearestHit S) 0 ray depth (by omega)
  · intro S ray
    exact hle (nearestHit S) kMaxDepth ray 0 (by omega)
  · intro f hall ray
    exact hexact f hall kMaxDepth ray 0 (by omega)

/-- C7 (amended): for every scene snapshot in which, for every ray, no two
sphere hits share the same parametric distance and no two plane hits share
the same parametric distance, the color returned by `trace` is unchanged
under any permutation of the sphere list and any permutation of the plane
list.  (The unamended claim fails when two primitives are hit at equal `t`:
the strict `t < tMin` comparison awards the hit to whichever is listed
first.) -/
theorem C7_trace_permutation (S : Scene) (ss : List Sphere) (ps : List Plane)
    (hs : S.spheres.Perm ss) (hp : S.planes.Perm ps)
    (hdist : ∀ ray : Ray,
      ((sphereHits ray S.spheres).map Hit.t).Pairwise (fun a b => a ≠ b) ∧
      ((planeHits ray S.planes).map Hit.t).Pairwise (fun a b => a ≠ b)) :
    ∀ (ray : Ray) (depth : ℕ),
      trace S ray depth =
        trace ⟨ss, ps, S.camPos, S.camLook, S.lightPos⟩ ray depth := by
  set S' : Scene := ⟨ss, ps, S.camPos, S.camLook, S.lightPos⟩ with hS'
  have hs' : S.spheres.Perm S'.spheres := hs
  have hp' : S.planes.Perm S'.planes := hp
  have hl : S.lightPos = S'.lightPos := rfl
  have hnh : ∀ ray : Ray, nearestHit S ray = nearestHit S' ray :=
    fun ray => nearestHit_perm ray hs' hp' (hdist ray).1 (hdist ray).2
  have key : ∀ (n : ℕ) (ray : Ray) (depth : ℕ), kMaxDepth - depth ≤ n →
      trace S ray depth = trace S' ray depth := by
    intro n
    induction n with
    | zero =>
      intro ray depth hn
      rcases hnhit : nearestHit S ray with _ | hit
      · have hnhit' : nearestHit S' ray = none := by
          rw [← hnh ray]
          exact hnhit
        rw [trace_none hnhit, trace_none hnhit']
      · have hnhit' : nearestHit S' ray = some hit := by
          rw [← hnh ray]
          exact hnhit
        have hnc : ¬ (depth < kMaxDepth ∧ 0 < hit.refl) := by
          rintro ⟨h1, -⟩
          omega
        rw [trace_some hnhit, trace_some hnhit', if_neg hnc, if_neg hnc,
          localColorOf_perm hs' hp' hl]
    | succ n ih =>
      intro ray depth hn
      rcases hnhit : nearestHit S ray with _ | hit
      · have hnhit' : nearestHit S' ray = none := by
          rw [← hnh ray]
          exact hnhit
        rw [trace_none hnhit, trace_none hnhit']
      · have hnhit' : nearestHit S' ray = some hit := by
          rw [← hnh ray]
          exact hnhit
        rw [trace_some hnhit, trace_some hnhit']
        by_cases hc : depth < kMaxDepth ∧ 0 < hit.refl
        · rw [if_pos hc, if_pos hc, localColorOf_perm hs' hp' hl,
            ih (reflRayOf ray hit) (depth + 1) (by omega)]
        · rw [if_neg hc, if_neg hc, localColorOf_perm hs' hp' hl]
  intro ray depth
  exact key (kMaxDepth + 1) ray depth (by omega)

/-- C7 witness: the amended theorem applied to a one-sphere, one-plane scene
(where the distinctness hypothesis is vacuous) and the identity permutations. -/
theorem C7_trace_permutation_witness :
    trace wScene7 cexRay7 0 =
      trace ⟨[cexRedSphere], [⟨⟨0, 1, 0⟩, 0, ⟨0.45, 0.30, 0.15⟩⟩],
        wScene7.camPos, wScene7.camLook, wScene7.lightPos⟩ cexRay7 0 :=
  C7_trace_permutation wScene7 _ _ (List.Perm.refl _) (List.Perm.refl _)
    (fun ray => ⟨pairwise_of_length_le_one (by
        rw [List.length_map]
        exact sphereHits_len_le ray _),
      pairwise_of_length_le_one (by
        rw [List.length_map]
        exact planeHits_len_le ray _)⟩) cexRay7 0

/-- C7 counterexample: two scenes that differ only by the order of their
(coincident, differently colored) spheres: the primary ray hits both at the
same `t = 2`, the strict `t < tMin` comparison keeps the first-listed sphere,
and `trace` returns different colors — so the claim as stated (invariance for
every scene snapshot under every permutation) is false. -/
theorem C7_trace_permutation_cex :
    cexSceneRB.spheres.Perm cexSceneBR.spheres ∧
    cexSceneRB.planes.Perm cexSceneBR.planes ∧
    cexSceneRB.camPos = cexSceneBR.camPos ∧
    cexSceneRB.camLook = cexSceneBR.camLook ∧
    cexSceneRB.lightPos = cexSceneBR.lightPos ∧
    trace cexSceneRB cexRay7 0 = ⟨1, 0.3, 0.3⟩ ∧
    trace cexSceneBR cexRay7 0 = ⟨0.3, 0.3, 1⟩ ∧
    (⟨1, 0.3, 0.3⟩ : Vec3) ≠ (⟨0.3, 0.3, 1⟩ : Vec3) := by
  have hdiscP : sphereDisc cexRay7 cexRedSphere = 4 := by
    norm_num [sphereDisc, dot, cexRay7, cexRedSphere]
  have ht0P : sphT0 cexRay7 cexRedSphere = 2 := by
    rw [sphT0_eval _ _ 4 2 hdiscP (by norm_num) (by norm_num)]
    norm_num [dot, sphereDivisor, cexRay7, cexRedSphere]
  have hargP : cexRay7.o + (2 : ℝ) • cexRay7.d - cexRedSphere.center = ⟨1, 0, 0⟩ := by
    apply Vec3.ext <;> norm_num [cexRay7, cexRedSphere]
  have hnP : normalize (cexRay7.o + (2 : ℝ) • cexRay7.d - cexRedSphere.center) =
      ⟨1, 0, 0⟩ := by
    rw [hargP]
    exact normalize_eval _ 1 _ one_pos (by norm_num [dot]) (by norm_num)
      (by apply Vec3.ext <;> norm_num)
  have hiR : intersect_sphere cexRay7 cexRedSphere = some (2, ⟨1, 0, 0⟩) :=
    intersect_sphere_hit_t0 (by rw [hdiscP]; norm_num) ht0P (by norm_num) hnP
  have hdiscPB : sphereDisc cexRay7 cexBlueSphere = 4 := by
    norm_num [sphereDisc, dot, cexRay7, cexBlueSphere]
  have ht0PB : sphT0 cexRay7 cexBlueSphere = 2 := by
    rw [sphT0_eval _ _ 4 2 hdiscPB (by norm_num) (by norm_num)]
    norm_num [dot, sphereDivisor, cexRay7, cexBlueSphere]
  have hargPB : cexRay7.o + (2 : ℝ) • cexRay7.d - cexBlueSphere.center = ⟨1, 0, 0⟩ := by
    apply Vec3.ext <;> norm_num [cexRay7, cexBlueSphere]
  have hnPB : normalize (cexRay7.o + (2 : ℝ) • cexRay7.d - cexBlueSphere.center) =
      ⟨1, 0, 0⟩ := by
    rw [hargPB]
    exact normalize_eval _ 1 _ one_pos (by norm_num [dot]) (by norm_num)
      (by apply Vec3.ext <;> norm_num)
  have hiB : intersect_sphere cexRay7 cexBlueSphere = some (2, ⟨1, 0, 0⟩) :=
    intersect_sphere_hit_t0 (by rw [hdiscPB]; norm_num) ht0PB (by norm_num) hnPB
  have hhp : cexRay7.o + (2 : ℝ) • cexRay7.d = ⟨1, 0, 0⟩ := by
    apply Vec3.ext <;> norm_num [cexRay7]
  have hvd : normalize ((-1 : ℝ) • cexRay7.d) = ⟨1, 0, 0⟩ := by
    have harg : (-1 : ℝ) • cexRay7.d = ⟨1, 0, 0⟩ := by
      apply Vec3.ext <;> norm_num [cexRay7]
    rw [harg]
    exact normalize_eval _ 1 _ one_pos (by norm_num [dot]) (by norm_num)
      (by apply Vec3.ext <;> norm_num)
  -- nearest hit, red-first scene
  have f1 : stepSphere cexRay7 ((1e30 : ℝ), (none : Option Hit)) cexRedSphere =
      (2, some ⟨2, ⟨1, 0, 0⟩, ⟨1, 0, 0⟩, 0⟩) := by
    rw [stepSphere_hit _ _ _ _ _ hiR (by show (2 : ℝ) < 1e30; norm_num)]
    rfl
  have f2 : stepSphere cexRay7 ((2 : ℝ), some (⟨2, ⟨1, 0, 0⟩, ⟨1, 0, 0⟩, 0⟩ : Hit))
      cexBlueSphere = ((2 : ℝ), some ⟨2, ⟨1, 0, 0⟩, ⟨1, 0, 0⟩, 0⟩) :=
    stepSphere_skip _ _ _ 2 ⟨1, 0, 0⟩ hiB (by show ¬ (2 : ℝ) < 2; norm_num)
  have hNHRB : nearestHit cexSceneRB cexRay7 = some ⟨2, ⟨1, 0, 0⟩, ⟨1, 0, 0⟩, 0⟩ := by
    rw [nearestHit]
    show (List.foldl (stepPlane cexRay7)
      (List.foldl (stepSphere cexRay7) ((1e30 : ℝ), none)
        [cexRedSphere, cexBlueSphere]) ([] : List Plane)).2 = _
    rw [List.foldl_cons, f1, List.foldl_cons, f2, List.foldl_nil, List.foldl_nil]
  -- nearest hit, blue-first scene
  have f1' : stepSphere cexRay7 ((1e30 : ℝ), (none : Option Hit)) cexBlueSphere =
      (2, some ⟨2, ⟨1, 0, 0⟩, ⟨0, 0, 1⟩, 0⟩) := by
    rw [stepSphere_hit _ _ _ _ _ hiB (by show (2 : ℝ) < 1e30; norm_num)]
    rfl
  have f2' : stepSphere cexRay7 ((2 : ℝ), some (⟨2, ⟨1, 0, 0⟩, ⟨0, 0, 1⟩, 0⟩ : Hit))
      cexRedSphere = ((2 : ℝ), some ⟨2, ⟨1, 0, 0⟩, ⟨0, 0, 1⟩, 0⟩) :=
    stepSphere_skip _ _ _ 2 ⟨1, 0, 0⟩ hiR (by show ¬ (2 : ℝ) < 2; norm_num)
  have hNHBR : nearestHit cexSceneBR cexRay7 = some ⟨2, ⟨1, 0, 0⟩, ⟨0, 0, 1⟩, 0⟩ := by
    rw [nearestHit]
    show (List.foldl (stepPlane cexRay7)
      (List.foldl (stepSphere cexRay7) ((1e30 : ℝ), none)
        [cexBlueSphere, cexRedSphere]) ([] : List Plane)).2 = _
    rw [List.foldl_cons, f1', List.foldl_cons, f2', List.foldl_nil, List.foldl_nil]
  -- trace, red-first scene
  have hmemRB : ∀ s ∈ cexSceneRB.spheres, s = cexRedSphere ∨ s = cexBlueSphere := by
    intro s hsm
    have hsm' : s ∈ [cexRedSphere, cexBlueSphere] := hsm
    simpa using hsm'
  have hmemBR : ∀ s ∈ cexSceneBR.spheres, s = cexRedSphere ∨ s = cexBlueSphere := by
    intro s hsm
    have hsm' : s ∈ [cexBlueSphere, cexRedSphere] := hsm
    have := (by simpa using hsm' : s = cexBlueSphere ∨ s = cexRedSphere)
    exact this.symm
  have hTRB : trace cexSceneRB cexRay7 0 = ⟨1, 0.3, 0.3⟩ := by
    rw [trace_some hNHRB,
      if_neg (by rintro ⟨-, h⟩; exact lt_irrefl (0 : ℝ) h)]
    have hloc : localColorOf cexSceneRB cexRay7 ⟨2, ⟨1, 0, 0⟩, ⟨1, 0, 0⟩, 0⟩ =
        clamp01 ⟨1.3, 0.3, 0.3⟩ := by
      rw [localColorOf]
      show shade cexSceneRB (cexRay7.o + (2 : ℝ) • cexRay7.d) ⟨1, 0, 0⟩ ⟨1, 0, 0⟩
        (normalize ((-1 : ℝ) • cexRay7.d)) = _
      rw [hhp, hvd]
      exact cex7_shade cexSceneRB ⟨1, 0, 0⟩ hmemRB rfl rfl ⟨1.3, 0.3, 0.3⟩
        (by apply Vec3.ext <;> norm_num)
    rw [hloc]
    apply Vec3.ext <;> norm_num [clamp01, clamp01c]
  have hTBR : trace cexSceneBR cexRay7 0 = ⟨0.3, 0.3, 1⟩ := by
    rw [trace_some hNHBR,
      if_neg (by rintro ⟨-, h⟩; exact lt_irrefl (0 : ℝ) h)]
    have hloc : localColorOf cexSceneBR cexRay7 ⟨2, ⟨1, 0, 0⟩, ⟨0, 0, 1⟩, 0⟩ =
        clamp01 ⟨0.3, 0.3, 1.3⟩ := by
      rw [localColorOf]
      show shade cexSceneBR (cexRay7.o + (2 : ℝ) • cexRay7.d) ⟨1, 0, 0⟩ ⟨0, 0, 1⟩
        (normalize ((-1 : ℝ) • cexRay7.d)) = _
      rw [hhp, hvd]
      exact cex7_shade cexSceneBR ⟨0, 0, 1⟩ hmemBR rfl rfl ⟨0.3, 0.3, 1.3⟩
        (by apply Vec3.ext <;> norm_num)
    rw [hloc]
    apply Vec3.ext <;> norm_num [clamp01, clamp01c]
  refine ⟨List.Perm.swap cexBlueSphere cexRedSphere [], List.Perm.refl _,
    rfl, rfl, rfl, hTRB, hTBR, ?_⟩
  intro h
  have hx := congrArg Vec3.x h
  norm_num at hx

/-- C8 (amended): the reflection branch is dead code only where the
reflectivity constant is exactly zero: `trace` equals the variant tracer with
the reflection branch removed whenever the nearest hit (if any) has
reflectivity `≤ 0` — which is the case for every sphere hit — or the depth
budget is exhausted.  For plane hits (reflectivity `0.05 > 0`) at
`depth < kMaxDepth`, `trace` blends in 5% of the recursively traced color and
in general differs from the variant, so the branch is not dead under the
current constants. -/
theorem C8_reflection_dead_when_zero (S : Scene) (ray : Ray) (depth : ℕ)
    (h : (∀ hh : Hit, nearestHit S ray = some hh → hh.refl ≤ 0) ∨ kMaxDepth ≤ depth) :
    trace S ray depth = traceNoRefl S ray depth := by
  rcases hnh : nearestHit S ray with _ | hit
  · rw [trace_none hnh, traceNoRefl, hnh]
  · rw [trace_some hnh, traceNoRefl, hnh]
    have hnc : ¬ (depth < kMaxDepth ∧ 0 < hit.refl) := by
      rcases h with h | h
      · rintro ⟨-, hr⟩
        exact absurd hr (not_lt.2 (h hit hnh))
      · rintro ⟨hd, -⟩
        omega
    rw [if_neg hnc]

/-- C8 witness: at depth `kMaxDepth = 2` the two tracers agree on the initial
scene. -/
theorem C8_reflection_dead_when_zero_witness :
    trace initScene ⟨⟨2.5, 1.5, 8.0⟩, ⟨0, 0, 1⟩⟩ 2 =
      traceNoRefl initScene ⟨⟨2.5, 1.5, 8.0⟩, ⟨0, 0, 1⟩⟩ 2 :=
  C8_reflection_dead_when_zero _ _ 2 (Or.inr (by norm_num [kMaxDepth]))

/-- C8 counterexample: in the initial room geometry (light moved to
`(2.5, 2, 2.5)`, a legitimate scene snapshot), a ray looking straight down at
the floor hits a plane with reflectivity `0.05 > 0`, the reflection branch
executes (bouncing floor → ceiling → floor), and `trace` differs from the
reflection-free variant: the claim that the reflection path is dead code
under the current constants is false. -/
theorem C8_reflection_not_dead_cex :
    trace cexSceneC8 cexRay8 0 = ⟨0.761875, 0.619, 0.476125⟩ ∧
    traceNoRefl cexSceneC8 cexRay8 0 = ⟨0.75, 0.6, 0.45⟩ ∧
    (⟨0.761875, 0.619, 0.476125⟩ : Vec3) ≠ ⟨0.75, 0.6, 0.45⟩ := by
  have hloc0 : localColorOf cexSceneC8 cexRay8
      ⟨1, ⟨0, 1, 0⟩, ⟨0.45, 0.30, 0.15⟩, 0.05⟩ = ⟨0.75, 0.6, 0.45⟩ := by
    rw [localColorOf]
    show shade cexSceneC8 (cexRay8.o + (1 : ℝ) • cexRay8.d) ⟨0, 1, 0⟩
      ⟨0.45, 0.30, 0.15⟩ (normalize ((-1 : ℝ) • cexRay8.d)) = _
    have hhp : cexRay8.o + (1 : ℝ) • cexRay8.d = ⟨2.5, 0, 2.5⟩ := by
      apply Vec3.ext <;> norm_num [cexRay8]
    have hvd : normalize ((-1 : ℝ) • cexRay8.d) = ⟨0, 1, 0⟩ := by
      have h' : (-1 : ℝ) • cexRay8.d = ⟨0, 1, 0⟩ := by
        apply Vec3.ext <;> norm_num [cexRay8]
      rw [h']
      exact normalize_eval _ 1 _ one_pos (by norm_num [dot]) (by norm_num)
        (by apply Vec3.ext <;> norm_num)
    rw [hhp, hvd]
    exact cex8_shadeFloor
  refine ⟨?_, ?_, ?_⟩
  · rw [trace_some cex8_nhR0,
      if_pos ⟨by decide, by show (0 : ℝ) < 0.05; norm_num⟩]
    have hrefl : reflRayOf cexRay8 ⟨1, ⟨0, 1, 0⟩, ⟨0.45, 0.30, 0.15⟩, 0.05⟩ =
        ⟨⟨2.5, 1e-3, 2.5⟩, ⟨0, 1, 0⟩⟩ := by
      rw [reflRayOf]
      show (⟨(cexRay8.o + (1 : ℝ) • cexRay8.d) + (1e-3 : ℝ) • (⟨0, 1, 0⟩ : Vec3),
        normalize (cexRay8.d - (2 * dot cexRay8.d ⟨0, 1, 0⟩) •
          (⟨0, 1, 0⟩ : Vec3))⟩ : Ray) = _
      have ho : (cexRay8.o + (1 : ℝ) • cexRay8.d) + (1e-3 : ℝ) • (⟨0, 1, 0⟩ : Vec3) =
          ⟨2.5, 1e-3, 2.5⟩ := by
        apply Vec3.ext <;> norm_num [cexRay8]
      have hd' : cexRay8.d - (2 * dot cexRay8.d ⟨0, 1, 0⟩) • (⟨0, 1, 0⟩ : Vec3) =
          ⟨0, 1, 0⟩ := by
        apply Vec3.ext <;> norm_num [cexRay8, dot]
      rw [ho, hd']
      rw [normalize_eval ⟨0, 1, 0⟩ 1 ⟨0, 1, 0⟩ one_pos (by norm_num [dot])
        (by norm_num) (by apply Vec3.ext <;> norm_num)]
    rw [hrefl, show (0 : ℕ) + 1 = 1 from rfl, cex8_trace1, hloc0]
    show clamp01 ((1 - (0.05 : ℝ)) • (⟨0.75, 0.6, 0.45⟩ : Vec3) +
      (0.05 : ℝ) • (⟨0.9875, 0.98, 0.9725⟩ : Vec3)) = _
    have harg : (1 - (0.05 : ℝ)) • (⟨0.75, 0.6, 0.45⟩ : Vec3) +
        (0.05 : ℝ) • (⟨0.9875, 0.98, 0.9725⟩ : Vec3) =
        ⟨0.761875, 0.619, 0.476125⟩ := by
      apply Vec3.ext <;> norm_num
    rw [harg]
    apply Vec3.ext <;> norm_num [clamp01, clamp01c]
  · rw [traceNoRefl, cex8_nhR0]
    show clamp01 (localColorOf cexSceneC8 cexRay8
      ⟨1, ⟨0, 1, 0⟩, ⟨0.45, 0.30, 0.15⟩, 0.05⟩) = _
    rw [hloc0]
    apply Vec3.ext <;> norm_num [clamp01, clamp01c]
  · intro h
    have hx := congrArg Vec3.x h
    norm_num at hx

/-- C6 witness: bound instances on the initial scene and the exact count for
a constant all-reflective oracle. -/
theorem C6_recursion_bound_witness :
    shadeEvals initScene ⟨⟨2.5, 1.5, 8.0⟩, ⟨0, 0, 1⟩⟩ 2 ≤ 1 ∧
    shadeEvals initScene ⟨⟨2.5, 1.5, 8.0⟩, ⟨0, 0, 1⟩⟩ 0 ≤ kMaxDepth + 1 ∧
    shadeEvalsWith (fun _ => some ⟨1, ⟨0, 1, 0⟩, ⟨1, 1, 1⟩, 1⟩)
      ⟨⟨0, 0, 0⟩, ⟨0, 1, 0⟩⟩ 0 = kMaxDepth + 1 :=
  ⟨C6_recursion_bound.1 _ _ 2 (by norm_num [kMaxDepth]),
   C6_recursion_bound.2.1 _ _,
   C6_recursion_bound.2.2 _
     (fun _ => ⟨⟨1, ⟨0, 1, 0⟩, ⟨1, 1, 1⟩, 1⟩, rfl, by norm_num⟩) _⟩

end

end RayTracer
